import Mathlib

/-!
Verification development for the OrderChat ordering core (`app/ordering.py`
and companion modules).  The Python functions are shallowly embedded as
executable Lean definitions: strings are Lean strings (the source only
exercises ASCII behaviour of `str.lower`, `\w`, `\s`, which is what the
character classes below model), Python `float` money/score arithmetic is
modelled exactly over `ℚ`, Python dicts are insertion-ordered association
lists with in-place update, and absent dict keys are modelled with `Option`
or the documented defaults.  Python exceptions never escape the embedded
fragment (every embedded branch is total); `json.loads` failures are
modelled by the `Option`-valued parser near the end of the file.
-/

set_option maxRecDepth 100000

namespace OrderChat

/-! ### Exact rational arithmetic

`MQ` is an exact rational number in canonical form (positive denominator,
reduced by the gcd); all operations are structurally recursive so that the
kernel can evaluate closed terms.  It models Python `float` arithmetic in
the source exactly at the decimal values the code manipulates (no claim
exercises a binary-representation boundary of `float`). -/

structure MQ where
  num : ℤ
  den : ℕ
deriving DecidableEq, Repr

/-- Build the canonical representative of `n / d` (for `d ≠ 0`; `d = 0`
never arises and yields `0`). -/
def MQ.mk' (n d : ℤ) : MQ :=
  if d = 0 then ⟨0, 1⟩
  else
    let s : ℤ := if d < 0 then -1 else 1
    let n' := s * n
    let d' := (s * d).toNat
    let g := Nat.gcd n'.natAbs d'
    ⟨n' / (g : ℤ), d' / g⟩

def MQ.ofInt (n : ℤ) : MQ := ⟨n, 1⟩

def MQ.ofN (n : ℕ) : MQ := ⟨n, 1⟩

instance (n : ℕ) : OfNat MQ n := ⟨⟨n, 1⟩⟩

instance : Add MQ :=
  ⟨fun a b => MQ.mk' (a.num * b.den + b.num * a.den) (a.den * b.den)⟩

instance : Neg MQ := ⟨fun a => ⟨-a.num, a.den⟩⟩

instance : Sub MQ := ⟨fun a b => a + (-b)⟩

instance : Mul MQ := ⟨fun a b => MQ.mk' (a.num * b.num) (a.den * b.den)⟩

instance : Div MQ := ⟨fun a b => MQ.mk' (a.num * b.den) (a.den * b.num)⟩

instance : LE MQ := ⟨fun a b => a.num * b.den ≤ b.num * a.den⟩

instance : LT MQ := ⟨fun a b => a.num * b.den < b.num * a.den⟩

instance : DecidableEq MQ := inferInstance

instance (a b : MQ) : Decidable (a ≤ b) :=
  inferInstanceAs (Decidable (a.num * b.den ≤ b.num * a.den))

instance (a b : MQ) : Decidable (a < b) :=
  inferInstanceAs (Decidable (a.num * b.den < b.num * a.den))

/-- `10 ^ k` as an `MQ`. -/
def MQ.pow10 (k : ℕ) : MQ := ⟨(10 : ℤ) ^ k, 1⟩

/-- Floor of an `MQ` (denominator is positive for all constructed
values). -/
def MQ.floorI (a : MQ) : ℤ := Int.fdiv a.num a.den

/-! ### Character classes (ASCII model of Python regex classes) -/

/-- Python `\s` (ASCII range): space, tab, newline, carriage return,
vertical tab, form feed. -/
def isWs (c : Char) : Bool :=
  c = ' ' || c = '\t' || c = '\n' || c = '\r' || c = '\x0b' || c = '\x0c'

/-- Python `\w` (ASCII range): letters, digits, underscore. -/
def isWordChar (c : Char) : Bool := c.isAlphanum || c = '_'

/-- ASCII lowercase conversion (`str.lower` on the ASCII range), written
on code points. -/
def pyLowerChar (c : Char) : Char :=
  if 65 ≤ c.toNat ∧ c.toNat ≤ 90 then Char.ofNat (c.toNat + 32) else c

/-- Characters kept by `_PUNCT_RE = [^a-z0-9\s]+` in ordering.py:
lowercase letters, digits and whitespace survive, everything else
(including underscores) is punctuation.  Written on code points
(`a`-`z` is 97-122, `0`-`9` is 48-57). -/
def isKeepChar (c : Char) : Bool :=
  (97 ≤ c.toNat && c.toNat ≤ 122) || (48 ≤ c.toNat && c.toNat ≤ 57) || isWs c

/-! ### List-of-characters utilities shared by the embeddings -/

/-- Python `str.strip()`: drop leading and trailing whitespace. -/
def stripChars (l : List Char) : List Char :=
  ((l.dropWhile isWs).reverse.dropWhile isWs).reverse

/-- Python `str.lower()` on ASCII. -/
def lowerChars (l : List Char) : List Char := l.map pyLowerChar

def pyStrip (s : String) : String := ⟨stripChars s.data⟩

def pyLower (s : String) : String := ⟨lowerChars s.data⟩

theorem dropWhile_len_le (p : Char → Bool) (l : List Char) :
    (l.dropWhile p).length ≤ l.length := by
  induction l with
  | nil => simp [List.dropWhile]
  | cons c rest ih =>
    by_cases h : p c <;> simp [List.dropWhile, h] <;> omega

mutual

/-- Replace each maximal run of non-kept characters with a single space:
`_PUNCT_RE.sub(" ", s)`.  `punctSkipRun` consumes the remainder of a
punctuation run after the single space has been emitted. -/
def punctRunsToSpace : List Char → List Char
  | [] => []
  | c :: rest =>
    if isKeepChar c then c :: punctRunsToSpace rest
    else ' ' :: punctSkipRun rest

def punctSkipRun : List Char → List Char
  | [] => []
  | c :: rest =>
    if isKeepChar c then c :: punctRunsToSpace rest
    else punctSkipRun rest

end

mutual

/-- Replace each maximal run of whitespace with a single space:
`re.sub(r"\s+", " ", s)`; `wsSkipRun` consumes the remainder of a
whitespace run. -/
def wsRunsToSpace : List Char → List Char
  | [] => []
  | c :: rest =>
    if isWs c then ' ' :: wsSkipRun rest
    else c :: wsRunsToSpace rest

def wsSkipRun : List Char → List Char
  | [] => []
  | c :: rest =>
    if isWs c then wsSkipRun rest
    else c :: wsRunsToSpace rest

end

/-- Python `re.sub(r"\s+", " ", s).strip()`. -/
def collapseWsStrip (l : List Char) : List Char := stripChars (wsRunsToSpace l)

/-- Boolean prefix test on character lists. -/
def isPfx : List Char → List Char → Bool
  | [], _ => true
  | _ :: _, [] => false
  | p :: ps, t :: ts => p = t && isPfx ps ts

/-- Python `pat in text` substring test. -/
def containsSub (pat : List Char) : List Char → Bool
  | [] => pat.isEmpty
  | t@(_ :: ts) => isPfx pat t || containsSub pat ts

/-- Python `text.replace(pat, repl)`: all non-overlapping occurrences,
scanned left to right.  All call sites use a non-empty `pat`; for an empty
`pat` the text is returned unchanged.  Fuelled by the text length (each
step consumes at least one character). -/
def replaceSubF (pat repl : List Char) : ℕ → List Char → List Char
  | 0, t => t
  | _ + 1, [] => []
  | fuel + 1, c :: ts =>
    if pat = [] then c :: ts
    else if isPfx pat (c :: ts) then
      repl ++ replaceSubF pat repl fuel ((c :: ts).drop pat.length)
    else c :: replaceSubF pat repl fuel ts

def replaceSub (pat repl t : List Char) : List Char :=
  replaceSubF pat repl t.length t

def isWordOpt : Option Char → Bool
  | none => false
  | some c => isWordChar c

/-- Word-boundary-delimited substitution:
`re.sub(rf"\b{re.escape(k)}\b", v, s)` for a literal key `k`, with regex
`\b` computed on the original text (the replacement is not rescanned),
exactly as `re.sub` scans.  `prev` is the original character preceding the
scan position.  Empty keys leave the text unchanged (the source skips
them).  Fuelled by the text length. -/
def wbSubF (k v : List Char) : ℕ → Option Char → List Char → List Char
  | 0, _, t => t
  | _ + 1, _, [] => []
  | fuel + 1, prev, c :: ts =>
    if hk : k = [] then c :: ts
    else
      if isPfx k (c :: ts) && (isWordOpt prev != isWordChar (k.head hk))
          && (isWordChar (k.getLast hk)
              != isWordOpt ((c :: ts).drop k.length).head?) then
        v ++ wbSubF k v fuel (some (k.getLast hk)) ((c :: ts).drop k.length)
      else c :: wbSubF k v fuel (some c) ts

def wbSub (k v : List Char) (prev : Option Char) (t : List Char) :
    List Char :=
  wbSubF k v t.length prev t

/-! ### ordering.py text helpers -/

/-- Default synonym dictionary `_DEFAULT_SYNONYMS` of ordering.py, in
insertion order. -/
def defaultSynonyms : List (String × String) :=
  [("chips", "fries"), ("chip", "fries"), ("coke", "coca cola"),
   ("cola", "coca cola"), ("water", "still water"), ("donner", "doner"),
   ("pepperonni", "pepperoni"), ("margarita", "margherita"),
   ("coca-cola", "coca cola"), ("cocacola", "coca cola")]

/-- Embedding of `_normalize_text(s, synonyms)` from ordering.py:
strip+lower, punctuation runs to spaces, whitespace collapse, then one
word-boundary substitution pass per synonym entry in dict insertion order
(keys and values lowercased, empty keys skipped), and a final whitespace
collapse. -/
def normalize_text (s : String) (synonyms : List (String × String)) : String :=
  let t := lowerChars (stripChars s.data)
  let t := collapseWsStrip (punctRunsToSpace t)
  let t := synonyms.foldl
    (fun acc kv =>
      if kv.1 = "" then acc
      else wbSub (lowerChars kv.1.data) (lowerChars kv.2.data) none acc) t
  ⟨collapseWsStrip t⟩

/-! ### _strip_filler_prefix (ordering.py) -/

def lastIsWord (a : List Char) : Bool :=
  match a.getLast? with
  | some c => isWordChar c
  | none => false

/-- Case-insensitive prefix test (the filler and quantity regexes carry
`re.IGNORECASE`); the pattern is given in lowercase. -/
def isPfxCI : List Char → List Char → Bool
  | [], _ => true
  | _ :: _, [] => false
  | p :: ps, t :: ts => p = t.toLower && isPfxCI ps ts

/-- Match a regex alternative given as words joined by `\s*`
(case-insensitively); returns the rest of the text after the final word.
The words start with letters, so maximal-munch whitespace consumption is
exact. -/
def matchWordsWs : List (List Char) → List Char → Option (List Char)
  | [], t => some t
  | w :: ws, t =>
    if isPfxCI w t then
      match ws with
      | [] => some (t.drop w.length)
      | _ :: _ => matchWordsWs ws ((t.drop w.length).dropWhile isWs)
    else none

/-- Trailing `\b[,\s]*` of the two filler regexes: boundary after the last
matched word, then commas/whitespace. -/
def chompSepTail (a rest : List Char) : Option (List Char) :=
  if lastIsWord a != isWordOpt rest.head? then
    some (rest.dropWhile (fun c => c = ',' || isWs c))
  else none

/-- Regex `^\s*(hi|hello|hey)\b[,\s]*` substitution with empty
replacement; alternatives are tried in source order. -/
def subGreetPfx (l : List Char) : List Char :=
  let t := l.dropWhile isWs
  let alts := ["hi".data, "hello".data, "hey".data]
  match alts.findSome? (fun a =>
      match matchWordsWs [a] t with
      | some rest => chompSepTail a rest
      | none => none) with
  | some rest => rest
  | none => l

/-- Regex
`^\s*(i\s*would\s*like|i'?d\s*like|can\s*i\s*get|could\s*i\s*get|may\s*i\s*have)\b[,\s]*`
substitution with empty replacement.  The `i'?d` alternative optionally
consumes one apostrophe between `i` and `d`. -/
def subIntentPfx (l : List Char) : List Char :=
  let t := l.dropWhile isWs
  let apos : Char := Char.ofNat 39
  let idLike : Option (List Char) :=
    if isPfxCI "i".data t then
      let t1 := t.drop 1
      let t2 := if t1.head? = some apos then t1.drop 1 else t1
      if isPfxCI "d".data t2 then
        match matchWordsWs ["like".data] ((t2.drop 1).dropWhile isWs) with
        | some rest => chompSepTail "like".data rest
        | none => none
      else none
    else none
  let wordAlts : List (List (List Char)) :=
    [["i".data, "would".data, "like".data],
     ["can".data, "i".data, "get".data],
     ["could".data, "i".data, "get".data],
     ["may".data, "i".data, "have".data]]
  let tryAlt : List (List Char) → Option (List Char) := fun ws =>
    match matchWordsWs ws t with
    | some rest =>
      match ws.getLast? with
      | some lastw => chompSepTail lastw rest
      | none => none
    | none => none
  -- regex alternation order: i would like, i'd like, can i get, could i get,
  -- may i have
  match tryAlt ["i".data, "would".data, "like".data] with
  | some rest => rest
  | none =>
    match idLike with
    | some rest => rest
    | none =>
      match (wordAlts.drop 1).findSome? tryAlt with
      | some rest => rest
      | none => l

/-- Regex `\bplease\b\s*$` substitution with empty replacement: remove a
leftmost word-bounded `please` that is followed only by whitespace. -/
def subPleaseEnd : Option Char → List Char → List Char
  | _, [] => []
  | prev, c :: ts =>
    if (!isWordOpt prev) && isPfxCI "please".data (c :: ts)
        && (!isWordOpt ((c :: ts).drop 6).head?)
        && ((c :: ts).drop 6).all isWs then
      []
    else c :: subPleaseEnd (some c) ts

/-- Embedding of `_strip_filler_prefix(raw)` from ordering.py. -/
def strip_filler (raw : String) : String :=
  let s := stripChars raw.data
  let s := subGreetPfx s
  let s := subIntentPfx s
  let s := subPleaseEnd none s
  ⟨stripChars s⟩

/-! ### _protect_and_phrases / _split_intents (ordering.py) -/

def dedupKeepFirstAux (seen : List (List Char)) :
    List (List Char) → List (List Char)
  | [] => []
  | x :: xs =>
    if x ∈ seen then dedupKeepFirstAux seen xs
    else x :: dedupKeepFirstAux (x :: seen) xs

def dedupKeepFirst (l : List (List Char)) : List (List Char) :=
  dedupKeepFirstAux [] l

/-- Embedding of `_protect_and_phrases(raw_lower, phrases)`: inside every
protected phrase (and its `and`/`&` spelling variants), the joiners
` and ` / ` & ` are rewritten to the sentinel `__AND__`
(`_AND_TOKEN.strip()`).  The Python source iterates the variants as a
`set`, whose order is unspecified; they are iterated here in construction
order, with duplicates removed. -/
def protect_and_phrases (s : String) (phrases : List String) : String :=
  let res := phrases.foldl
    (fun acc ph =>
      let phl := stripChars (lowerChars ph.data)
      if phl = [] then acc
      else
        let variants := dedupKeepFirst
          [phl, replaceSub " & ".data " and ".data phl,
           replaceSub " and ".data " & ".data phl]
        variants.foldl
          (fun acc2 v =>
            if containsSub " and ".data v || containsSub " & ".data v then
              let protected_ :=
                replaceSub " & ".data "__AND__".data
                  (replaceSub " and ".data "__AND__".data v)
              replaceSub v protected_ acc2
            else acc2) acc) s.data
  ⟨res⟩

/-- Embedding of `_unprotect_and(s)`. -/
def unprotect_and (s : List Char) : List Char :=
  replaceSub "__AND__".data "and".data s

/-- One alternative of `_SPLIT_RE`'s group at the head of `u`:
`,`, `&`, `+` or the five characters ` and `, in that order. -/
def splitAltAt (u : List Char) : Option (List Char) :=
  match u with
  | [] => none
  | c :: r =>
    if c = ',' || c = '&' || c = '+' then some r
    else if isPfx " and ".data (c :: r) then some ((c :: r).drop 5)
    else none

/-- Match `\s*(?:,|&|\+| and )\s*` at the start of `t`: the leading `\s*`
is greedy and backtracks (try `w` whitespace characters, longest first),
the trailing `\s*` is greedy. -/
def sepTryWs : ℕ → List Char → Option (List Char)
  | 0, t =>
    match splitAltAt t with
    | some r => some (r.dropWhile isWs)
    | none => none
  | w + 1, t =>
    match splitAltAt (t.drop (w + 1)) with
    | some r => some (r.dropWhile isWs)
    | none => sepTryWs w t

def sepAt (t : List Char) : Option (List Char) :=
  sepTryWs (t.takeWhile isWs).length t

/-- Raw pieces of `_SPLIT_RE.split`, fuelled by the text length (each
separator consumes at least one character, so the fuel never runs out when
initialised to `length + 1`). -/
def splitRawF : ℕ → List Char → List (List Char)
  | 0, t => [t]
  | fuel + 1, t =>
    match t with
    | [] => [[]]
    | c :: ts =>
      match sepAt (c :: ts) with
      | some rest => [] :: splitRawF fuel rest
      | none =>
        match splitRawF fuel ts with
        | [] => [[c]]
        | p :: rest => (c :: p) :: rest

/-- Embedding of `_split_intents(msg_norm)`: split on `_SPLIT_RE`, keep the
stripped non-empty pieces, restore `__AND__` to `and` in each, and fall
back to the whole (unprotected) message when nothing survives. -/
def split_intents (msg : String) : List String :=
  let pieces := splitRawF (msg.data.length + 1) msg.data
  let parts := (pieces.map stripChars).filter (· ≠ [])
  let parts := parts.map (fun p => (⟨unprotect_and p⟩ : String))
  if parts.isEmpty then [⟨unprotect_and msg.data⟩] else parts

/-! ### _parse_qty_prefix and _extract_price_delta (ordering.py) -/

def digitsValNat (l : List Char) : ℕ :=
  l.foldl (fun acc c => 10 * acc + (c.toNat - 48)) 0

/-- Embedding of the quantity parser (`_QTY_RE` then `max(1, ...)`); the
source names it with a `_qty_` infix and a trailing `prefix` word. -/
def parse_qty (msg : String) : ℤ × String :=
  let t := msg.data.dropWhile isWs
  let digits := t.takeWhile Char.isDigit
  if digits = [] then (1, pyStrip msg)
  else
    let t2 := (t.drop digits.length).dropWhile isWs
    match t2 with
    | c :: rest =>
      if (c = 'x' || c = 'X' || c = '×') && rest ≠ [] then
        (max 1 (digitsValNat digits : ℤ), ⟨stripChars rest⟩)
      else (1, pyStrip msg)
    | [] => (1, pyStrip msg)

/-- Match `\(\s*\+\s*(?:£\s*)?(\d+(?:\.\d+)?)\s*\)` at the start of `t`,
returning the captured decimal as an exact rational. -/
def priceDeltaAt (t : List Char) : Option MQ :=
  match t with
  | '(' :: r =>
    let r := r.dropWhile isWs
    match r with
    | '+' :: r2 =>
      let r2 := r2.dropWhile isWs
      let r3 := if r2.head? = some '£' then (r2.drop 1).dropWhile isWs else r2
      let d1 := r3.takeWhile Char.isDigit
      if d1 = [] then none
      else
        let r4 := r3.drop d1.length
        let (fracVal, r5) :=
          match r4 with
          | '.' :: r4b =>
            let d2 := r4b.takeWhile Char.isDigit
            if d2 = [] then ((0 : MQ), r4)
            else (MQ.ofN (digitsValNat d2) / MQ.pow10 d2.length,
              r4b.drop d2.length)
          | _ => ((0 : MQ), r4)
        match r5.dropWhile isWs with
        | ')' :: _ => some (MQ.ofN (digitsValNat d1) + fracVal)
        | _ => none
    | _ => none
  | _ => none

/-- Embedding of `_extract_price_delta(choice_text)`: leftmost match of
`_PRICE_DELTA_RE`, else `0.0`. -/
def extract_price_delta (s : String) : MQ :=
  go s.data
where
  go : List Char → MQ
    | [] => 0
    | c :: ts =>
      match priceDeltaAt (c :: ts) with
      | some q => q
      | none => go ts

/-! ### difflib (SequenceMatcher ratios, get_close_matches with n=1)

The similarity scores are Python floats; they are modelled exactly over
`ℚ` (`2*M/T` is computed exactly).  The inputs in this code base are far
shorter than difflib's autojunk threshold of 200 characters, so the
no-junk algorithm is the exact semantics. -/

def ratioCalc (m total : ℕ) : MQ :=
  if total = 0 then 1 else (2 : MQ) * MQ.ofN m / MQ.ofN total

/-- difflib `real_quick_ratio` for seq1 `a` and seq2 `b`. -/
def ratioRealQuick (a b : List Char) : MQ :=
  ratioCalc (min a.length b.length) (a.length + b.length)

/-- difflib `quick_ratio`: multiset intersection of the characters. -/
def ratioQuick (a b : List Char) : MQ :=
  ratioCalc (a.dedup.foldl (fun n c => n + min (a.count c) (b.count c)) 0)
    (a.length + b.length)

/-- Increasing list of positions of `c` in `b` (difflib's `b2j`). -/
def positionsIn (b : List Char) (c : Char) : List ℕ :=
  (List.range b.length).filter (fun j => b.get? j = some c)

def alGet (m : List (ℕ × ℕ)) (k : ℕ) : ℕ :=
  match m.find? (fun p => p.1 = k) with
  | some p => p.2
  | none => 0

/-- One row of difflib `find_longest_match`'s dynamic programme: for fixed
`i`, walk the positions `j` of `a[i]` in `b` (increasing, as in `b2j`),
building the new `j2len` row and updating the best block on a strictly
greater length (ties keep the earliest `i`, then earliest `j`). -/
def flmRow (blo bhi i : ℕ) (js : List ℕ) (j2len : List (ℕ × ℕ))
    (best : ℕ × ℕ × ℕ) : List (ℕ × ℕ) × (ℕ × ℕ × ℕ) :=
  js.foldl
    (fun st j =>
      let (row, bi, bj, bs) := st
      if j < blo || bhi ≤ j then st
      else
        let k := (if j = 0 then 0 else alGet j2len (j - 1)) + 1
        let row' := (j, k) :: row
        if k > bs then (row', i + 1 - k, j + 1 - k, k) else (row', bi, bj, bs))
    ((([] : List (ℕ × ℕ))), best)

/-- Core loop of difflib `find_longest_match` (no junk). -/
def flmCore (a b : List Char) (alo ahi blo bhi : ℕ) : ℕ × ℕ × ℕ :=
  let res := (List.range' alo (ahi - alo)).foldl
    (fun st i =>
      let (j2len, best) := st
      flmRow blo bhi i (positionsIn b (a.getD i ' ')) j2len best)
    (([] : List (ℕ × ℕ)), (alo, blo, 0))
  res.2

/-- The two non-junk extension loops after the dynamic programme,
fuelled by the maximal number of extension steps. -/
def flmExtL (a b : List Char) (alo blo : ℕ) :
    ℕ → ℕ × ℕ × ℕ → ℕ × ℕ × ℕ
  | 0, st => st
  | fuel + 1, (besti, bestj, bestsize) =>
    if alo < besti ∧ blo < bestj ∧
        a.getD (besti - 1) ' ' = b.getD (bestj - 1) ' ' then
      flmExtL a b alo blo fuel (besti - 1, bestj - 1, bestsize + 1)
    else (besti, bestj, bestsize)

def flmExtR (a b : List Char) (ahi bhi : ℕ) :
    ℕ → ℕ × ℕ × ℕ → ℕ × ℕ × ℕ
  | 0, st => st
  | fuel + 1, (besti, bestj, bestsize) =>
    if besti + bestsize < ahi ∧ bestj + bestsize < bhi ∧
        a.getD (besti + bestsize) ' ' = b.getD (bestj + bestsize) ' ' then
      flmExtR a b ahi bhi fuel (besti, bestj, bestsize + 1)
    else (besti, bestj, bestsize)

/-- difflib `find_longest_match(alo, ahi, blo, bhi)` (junk-free). -/
def flm (a b : List Char) (alo ahi blo bhi : ℕ) : ℕ × ℕ × ℕ :=
  flmExtR a b ahi bhi ahi
    (flmExtL a b alo blo (flmCore a b alo ahi blo bhi).1
      (flmCore a b alo ahi blo bhi))

/-- Total size of the matching blocks of `get_matching_blocks`, via the
same recursive subdivision (the queue order does not affect the sum). -/
def mbSum (a b : List Char) : ℕ → ℕ → ℕ → ℕ → ℕ → ℕ
  | 0, _, _, _, _ => 0
  | fuel + 1, alo, ahi, blo, bhi =>
    let (i, j, k) := flm a b alo ahi blo bhi
    if k = 0 then 0
    else k + mbSum a b fuel alo i blo j + mbSum a b fuel (i + k) ahi (j + k) bhi

/-- difflib `ratio()` for seq1 `a`, seq2 `b`. -/
def ratioFull (a b : List Char) : MQ :=
  ratioCalc (mbSum a b (a.length + b.length + 1) 0 a.length 0 b.length)
    (a.length + b.length)

/-- The cutoff filter of `get_close_matches`: upper-bound ratios first,
then the real ratio, exactly as the source chains them. -/
def closeEnough (a b : List Char) (cutoff : MQ) : Bool :=
  decide (cutoff ≤ ratioRealQuick a b) && decide (cutoff ≤ ratioQuick a b)
    && decide (cutoff ≤ ratioFull a b)

/-- difflib `get_close_matches(word, keys, n=1, cutoff)`: keep keys whose
ratio reaches the cutoff, then take the largest by `(score, key)` in
Python tuple order (score first, then lexicographic string comparison);
the first entry wins exact ties. -/
def getCloseMatch1 (word : String) (keys : List String) (cutoff : MQ) :
    Option String :=
  let scored := keys.filterMap
    (fun x =>
      if closeEnough x.data word.data cutoff then
        some (ratioFull x.data word.data, x)
      else none)
  (scored.foldl
    (fun best p =>
      match best with
      | none => some p
      | some q =>
        if p.1 > q.1 ∨ (p.1 = q.1 ∧ q.2 < p.2) then some p else some q)
    none).map (·.2)

/-- Embedding of `_fuzzy_best_key(keys, query, cutoff)` from ordering.py:
exact membership, then first key containing the query as a substring, then
`difflib.get_close_matches` with `n=1`. -/
def fuzzy_best_key (keys : List String) (query : String) (cutoff : MQ) :
    Option String :=
  if query = "" || keys.isEmpty then none
  else
    let q := pyLower (pyStrip query)
    if keys.contains q then some q
    else
      match keys.find? (fun k => q ≠ "" && containsSub q.data k.data) with
      | some k => some k
      | none => getCloseMatch1 q keys cutoff

/-! ### Data model

Python dicts are modelled as structures for the fixed schemas (menu, cart
line, conversation state) and as insertion-ordered association lists for
the open-keyed lookup tables.  `Option` marks keys the code reads with
`.get`; reads with defaults are folded into the accessors exactly as the
source writes them. -/

structure Extra where
  name : Option String
  price : MQ
deriving DecidableEq, Repr

structure RawModifier where
  key : Option String
  prompt : Option String
  required : Bool
  multi : Bool
  options : List String
deriving DecidableEq, Repr

/-- Normalised modifier record produced by `_get_item_modifiers`. -/
structure ModifierSpec where
  key : String
  prompt : String
  required : Bool
  multi : Bool
  options : List String
deriving DecidableEq, Repr

structure MenuItem where
  id : Option String
  name : Option String
  category_id : Option String
  base_price : Option MQ
  modifiers : List RawModifier
  options_compat : List (String × List String)
  extras : List Extra
deriving DecidableEq, Repr

structure Category where
  id : Option String
  name : Option String
  items : List MenuItem
deriving DecidableEq, Repr

structure MenuMeta where
  currency : Option String
  synonyms : List (String × String)
deriving DecidableEq, Repr

structure MenuIndex where
  cats_by_id : List (String × Category)
  cats_by_name_raw : List (String × Category)
  cats_by_name_norm : List (String × Category)
  cats_by_name_norm_syn : List (String × Category)
  items_by_id : List (String × MenuItem)
  items_by_name_raw : List (String × MenuItem)
  items_by_name_norm : List (String × MenuItem)
  items_by_name_norm_syn : List (String × MenuItem)
  and_phrases : List String
deriving DecidableEq, Repr

/-- A menu document; `index` models the presence of the `_index` key that
`_build_menu_index` writes onto the caller's dict. -/
structure MenuDoc where
  meta : MenuMeta
  categories : List Category
  items : List MenuItem
  index : Option MenuIndex := none
deriving DecidableEq, Repr

def emptyIndex : MenuIndex := ⟨[], [], [], [], [], [], [], [], []⟩

/-- Python dict assignment `d[k] = v`: update in place, else append. -/
def dinsert {β : Type} (m : List (String × β)) (k : String) (v : β) :
    List (String × β) :=
  if m.any (fun p => p.1 = k) then
    m.map (fun p => if p.1 = k then (k, v) else p)
  else m ++ [(k, v)]

/-- Python dict `d.get(k)`. -/
def dget {β : Type} (m : List (String × β)) (k : String) : Option β :=
  (m.find? (fun p => p.1 = k)).map (·.2)

/-- Python `x or ""` for an optional string field. -/
def optStr (o : Option String) : String := o.getD ""

def pyUpper (s : String) : String := ⟨s.data.map Char.toUpper⟩

def strStarts (p m : String) : Bool := isPfx p.data m.data

/-! ### Money arithmetic: Python `round(x, 2)` and `f"{x:.2f}"`, modelled
exactly over `ℚ` with round-half-to-even (the idealised decimal semantics
of the float code; no claim exercises a binary-representation boundary). -/

def roundHalfEvenInt (q : MQ) : ℤ :=
  let n := q.floorI
  let f := q - MQ.ofInt n
  if f < (1 : MQ) / 2 then n
  else if (1 : MQ) / 2 < f then n + 1
  else if n % 2 = 0 then n else n + 1

def pyRound2 (q : MQ) : MQ := MQ.ofInt (roundHalfEvenInt (q * 100)) / 100

def fmtMoneyNat (n : ℕ) : String :=
  toString (n / 100) ++ "." ++ (if n % 100 < 10 then "0" else "") ++
    toString (n % 100)

/-- Rendering of an (already-rounded) amount with `:.2f`. -/
def fmtMoney (q : MQ) : String :=
  let n := roundHalfEvenInt (q * 100)
  if n < 0 then "-" ++ fmtMoneyNat n.natAbs else fmtMoneyNat n.natAbs

/-! ### Menu helpers (ordering.py) -/

/-- Embedding of `_menu_synonyms(menu)`: defaults updated with the menu's
lowercased custom entries (dict `update` keeps existing positions,
appends new keys). -/
def menu_synonyms (menu : MenuDoc) : List (String × String) :=
  menu.meta.synonyms.foldl
    (fun acc kv => dinsert acc (pyLower kv.1) (pyLower kv.2)) defaultSynonyms

/-- Embedding of `_currency_symbol(menu)`. -/
def currency_symbol (menu : MenuDoc) : String :=
  let cur :=
    match menu.meta.currency with
    | none => "GBP"
    | some "" => "GBP"
    | some s => s
  if pyUpper cur = "GBP" then "£" else ""

/-- Auxiliary `_index_item` of `_build_menu_index`. -/
def indexItem (synonyms : List (String × String)) (idx : MenuIndex)
    (it : MenuItem) : MenuIndex :=
  let iid := pyStrip (optStr it.id)
  let nm := pyStrip (optStr it.name)
  let idx :=
    if iid ≠ "" then {idx with items_by_id := dinsert idx.items_by_id iid it}
    else idx
  if nm ≠ "" then
    {idx with
      items_by_name_raw := dinsert idx.items_by_name_raw (pyLower nm) it,
      items_by_name_norm :=
        dinsert idx.items_by_name_norm (normalize_text nm []) it,
      items_by_name_norm_syn :=
        dinsert idx.items_by_name_norm_syn (normalize_text nm synonyms) it}
  else idx

/-- Embedding of `_build_menu_index(menu, synonyms)`: builds the lookup
tables from nested and flat items, computes `and_phrases`, and — exactly
as the source's `menu["_index"] = idx; return menu` — attaches the index
onto the input document and returns that same document. -/
def build_menu_index (menu : MenuDoc) (synonyms : List (String × String)) :
    MenuDoc :=
  let idx := menu.categories.foldl
    (fun idx c =>
      let cid := pyStrip (optStr c.id)
      let cname := pyStrip (optStr c.name)
      let idx :=
        if cid ≠ "" then {idx with cats_by_id := dinsert idx.cats_by_id cid c}
        else idx
      let idx :=
        if cname ≠ "" then
          {idx with
            cats_by_name_raw := dinsert idx.cats_by_name_raw (pyLower cname) c,
            cats_by_name_norm :=
              dinsert idx.cats_by_name_norm (normalize_text cname []) c,
            cats_by_name_norm_syn :=
              dinsert idx.cats_by_name_norm_syn (normalize_text cname synonyms) c}
        else idx
      c.items.foldl (indexItem synonyms) idx)
    emptyIndex
  let idx := menu.items.foldl (indexItem synonyms) idx
  let idx :=
    {idx with
      and_phrases := (idx.items_by_name_raw.map (·.1)).filter
        (fun nm => containsSub " and ".data nm.data ||
          containsSub " & ".data nm.data)}
  {menu with index := some idx}

/-- Model of `menu.get("_index") or {}`. -/
def idxOf (menu : MenuDoc) : MenuIndex := menu.index.getD emptyIndex

/-- Embedding of `_all_category_names(menu)`. -/
def all_category_names (menu : MenuDoc) : List String :=
  menu.categories.filterMap
    (fun c =>
      let n := pyStrip (optStr c.name)
      if n ≠ "" then some n else none)

/-- Embedding of `_items_in_category(menu, category_id_or_name)`. -/
def items_in_category (menu : MenuDoc) (cidOrName : String) : List MenuItem :=
  let idx := idxOf menu
  let items := idx.items_by_id.map (·.2)
  let cid := pyStrip cidOrName
  if cid = "" then []
  else
    let catObj :=
      (((dget idx.cats_by_id cid).orElse
          (fun _ => dget idx.cats_by_name_raw (pyLower cid))).orElse
        (fun _ => dget idx.cats_by_name_norm (normalize_text cid []))).orElse
        (fun _ =>
          dget idx.cats_by_name_norm_syn
            (normalize_text cid (menu_synonyms menu)))
    let cid2 :=
      match catObj with
      | some c =>
        let s := pyStrip (optStr c.id)
        if s ≠ "" then s else cid
      | none => cid
    let out := items.filter (fun it => pyStrip (optStr it.category_id) = cid2)
    if out = [] then
      match catObj with
      | some c => if c.items ≠ [] then c.items else []
      | none => []
    else out

/-- The inner `_try` of `_find_item_in_text`. -/
def tryLookup {β : Type} (lookup : List (String × β)) (q : String)
    (cutoff : MQ) : Option β :=
  if q = "" || lookup.isEmpty then none
  else
    match fuzzy_best_key (lookup.map (·.1)) q cutoff with
    | some best => dget lookup best
    | none => none

/-- Embedding of `_find_item_in_text(menu, text, synonyms)`. -/
def find_item_in_text (menu : MenuDoc) (text : String)
    (synonyms : List (String × String)) : Option MenuItem :=
  let idx := idxOf menu
  let raw_q := pyLower (pyStrip text)
  let norm_q := normalize_text text []
  let syn_q := normalize_text text synonyms
  match tryLookup idx.items_by_name_raw raw_q (80 / 100) with
  | some hit => some hit
  | none =>
    match tryLookup idx.items_by_name_norm norm_q (62 / 100) with
    | some hit => some hit
    | none => tryLookup idx.items_by_name_norm_syn syn_q (62 / 100)

/-- Embedding of `_find_items_by_keyword(menu, text, synonyms)`: every
item whose key in any of the three name lookups contains one of the
queries, deduplicated by (deep) equality, in scan order. -/
def find_items_by_keyword (menu : MenuDoc) (text : String)
    (synonyms : List (String × String)) : List MenuItem :=
  let idx := idxOf menu
  let raw_q := pyLower (pyStrip text)
  let queries := if raw_q ≠ "" then [raw_q] else []
  let norm_q := normalize_text text []
  let queries :=
    if norm_q ≠ "" ∧ norm_q ∉ queries then queries ++ [norm_q] else queries
  let syn_q := normalize_text text synonyms
  let queries :=
    if syn_q ≠ "" ∧ syn_q ∉ queries then queries ++ [syn_q] else queries
  let lookups :=
    [idx.items_by_name_raw, idx.items_by_name_norm, idx.items_by_name_norm_syn]
  queries.foldl
    (fun out q =>
      lookups.foldl
        (fun out lk =>
          lk.foldl
            (fun out p =>
              if q ≠ "" ∧ containsSub q.data p.1.data ∧ p.2 ∉ out then
                out ++ [p.2]
              else out)
            out)
        out)
    []

/-- Embedding of `_find_category_in_text(menu, text, synonyms)`. -/
def find_category_in_text (menu : MenuDoc) (text : String)
    (synonyms : List (String × String)) : Option Category :=
  let t_raw := pyStrip text
  if t_raw = "" then none
  else
    let idx := idxOf menu
    let candidates :
        List (List (String × Category) × String) :=
      [(idx.cats_by_name_raw, pyLower t_raw),
       (idx.cats_by_name_norm, normalize_text t_raw []),
       (idx.cats_by_name_norm_syn, normalize_text t_raw synonyms)]
    candidates.findSome?
      (fun p =>
        if p.2 = "" then none
        else
          match fuzzy_best_key (p.1.map (·.1)) p.2 (70 / 100) with
          | some best => dget p.1 best
          | none => none)

/-! ### Conversation intent helpers (ordering.py) -/

def GREETINGS : List String :=
  ["hi", "hello", "hey", "yo", "hiya", "sup", "alright", "alright mate",
   "mate", "boss", "bossman", "morning", "evening"]

def NO_EXTRAS : List String :=
  ["no extras", "no extra", "no", "none", "nah", "no thanks",
   "no thank you", "no thx"]

def CONTINUE_ORDER : List String :=
  ["and a drink", "a drink", "drink", "something to drink", "and a side",
   "a side", "side", "sides", "and dessert", "dessert", "something sweet",
   "anything else", "something else", "add another", "another", "also",
   "yes", "yeah", "yep", "ok", "okay"]

def CATEGORY_ALIASES : List (String × List String) :=
  [("drinks", ["drinks", "beverages", "soft drinks", "hot drinks"]),
   ("sides", ["sides", "extras", "side dishes", "small plates"]),
   ("desserts", ["desserts", "sweet", "sweets", "pudding"])]

def is_greeting_only (m : String) : Bool := m ≠ "" && GREETINGS.contains m

def is_continue_order (m : String) : Bool :=
  m ≠ "" &&
    (CONTINUE_ORDER.contains m || strStarts "and " m || strStarts "add " m)

def concept_from_message (m : String) : Option String :=
  if containsSub "drink".data m.data || containsSub "beverage".data m.data then
    some "drinks"
  else if containsSub "side".data m.data || containsSub "extra".data m.data then
    some "sides"
  else if containsSub "dessert".data m.data || containsSub "sweet".data m.data
      || containsSub "pudding".data m.data then
    some "desserts"
  else none

def find_category_by_concept (menu : MenuDoc) (concept : String)
    (synonyms : List (String × String)) : Option Category :=
  ((dget CATEGORY_ALIASES concept).getD []).findSome?
    (fun a => find_category_in_text menu a synonyms)

def pyShowOpt (o : Option String) : String := o.getD "None"

/-- Embedding of `_render_category(menu, cat, cur)`. -/
def render_category (menu : MenuDoc) (cat : Category) (cur : String) :
    String :=
  let arg :=
    match cat.id with
    | some s => if s ≠ "" then s else optStr cat.name
    | none => optStr cat.name
  let items := items_in_category menu arg
  let lines := (items.take 25).filterMap
    (fun it =>
      match it.name, it.base_price with
      | some n, some p =>
        some ("- " ++ n ++ " (" ++ cur ++ fmtMoney p ++ ")")
      | some n, none => some ("- " ++ n)
      | none, _ => none)
  if lines = [] then pyShowOpt cat.name ++ " has no items yet."
  else
    pyShowOpt cat.name ++ " options:\n" ++ String.intercalate "\n" lines ++
      "\n\nTell me which one you want."

/-- Embedding of `_next_prompt(menu)`. -/
def next_prompt (menu : MenuDoc) : String :=
  match all_category_names menu with
  | c :: _ =>
    "Anything else? You can say a category (e.g. " ++ c ++
      "), an item name, or “confirm”."
  | [] => "Anything else? Say an item name, or “confirm”."

/-- Embedding of `_dynamic_help(menu)`. -/
def dynamic_help (menu : MenuDoc) : String :=
  let cats := all_category_names menu
  let idx := idxOf menu
  let examples := ((idx.items_by_id.map (·.2)).take 6).filterMap
    (fun it =>
      let n := pyStrip (optStr it.name)
      if n ≠ "" then some n else none)
  let lines :=
    ["I didn’t catch that. Try:", "- “menu”"] ++
      (cats.take 3).map (fun c => "- “" ++ pyLower c ++ "”") ++
      (match examples.head? with
       | some e => ["- “" ++ e ++ "”"]
       | none => []) ++
      (match examples.get? 1 with
       | some e => if 2 ≤ examples.length then ["- “2x " ++ e ++ "”"] else []
       | none => []) ++
      ["- “basket”", "- “remove <item>”", "- “confirm”"]
  String.intercalate "\n" lines

/-- Embedding of `_get_item_modifiers(item)` (new schema, then back-compat
`options` dict). -/
def get_item_modifiers (it : MenuItem) : List ModifierSpec :=
  if it.modifiers ≠ [] then
    it.modifiers.filterMap
      (fun m =>
        let key := pyStrip (optStr m.key)
        if key = "" then none
        else
          let promptRaw :=
            match m.prompt with
            | some p => if p ≠ "" then p else "Choose " ++ key ++ ":"
            | none => "Choose " ++ key ++ ":"
          some ⟨key, pyStrip promptRaw, m.required, m.multi, m.options⟩)
  else if it.options_compat ≠ [] then
    it.options_compat.map
      (fun p => ⟨p.1, "What " ++ p.1 ++ " do you want?", true, false, p.2⟩)
  else []

/-! ### Cart and conversation state -/

inductive ChoiceVal where
  | single (s : String)
  | multi (l : List String)
deriving DecidableEq, Repr

/-- A cart line as created and mutated by `handle_message`.  The
`needs_modifiers` / `first_mod_index` / `needs_extras` fields model the
presence of the bookkeeping keys `_needs_modifiers`, `_first_mod_index`
and `_needs_extras` on the line's dict (`false` / `none` is key-absent;
the code only ever stores `True` and an index). -/
structure CartLine where
  item_id : Option String
  name : Option String
  qty : ℤ
  base_price : MQ
  choices : List (String × ChoiceVal)
  choice_price_deltas : List (String × MQ)
  extras : List Extra
  notes : String
  line_total : MQ
  needs_modifiers : Bool := false
  first_mod_index : Option ℤ := none
  needs_extras : Bool := false
deriving DecidableEq, Repr

/-- The JSON keys `json.dumps` emits for a code-created cart line (the
nine data-model keys plus any bookkeeping keys still set). -/
def dumpLineKeys (l : CartLine) : List String :=
  ["item_id", "name", "qty", "base_price", "choices", "choice_price_deltas",
   "extras", "notes", "line_total"] ++
    (if l.needs_modifiers then ["_needs_modifiers"] else []) ++
    (match l.first_mod_index with
     | some _ => ["_first_mod_index"]
     | none => []) ++
    (if l.needs_extras then ["_needs_extras"] else [])

/-- Conversation state: the JSON object `{mode?, line_index?, mod_index?,
pending_parts?}`; `none` / `[]` model absent keys. -/
structure ConvState where
  mode : Option String := none
  line_index : Option ℤ := none
  mod_index : Option ℤ := none
  pending_parts : List String := []
deriving DecidableEq, Repr

def ConvState.empty : ConvState := {}

/-- Python `int(line.get("qty", 1) or 1)`: an absent or zero qty counts
as 1. -/
def qtyOr1 (l : CartLine) : ℤ := if l.qty = 0 then 1 else l.qty

/-- Embedding of `_recalc_line_total(line)` (returns the updated line). -/
def recalc_line_total (l : CartLine) : CartLine :=
  let extras_total := l.extras.foldl (fun acc e => acc + e.price) 0
  let mods_total := l.choice_price_deltas.foldl (fun acc p => acc + p.2) 0
  {l with
    line_total :=
      pyRound2 (MQ.ofInt (qtyOr1 l) *
        (l.base_price + mods_total + extras_total))}

/-- Embedding of `_cart_total(cart)`. -/
def cart_total (cart : List CartLine) : MQ :=
  pyRound2 (cart.foldl (fun a l => a + l.line_total) 0)

/-- Python truthiness of a stored choice value. -/
def choiceTruthy : ChoiceVal → Bool
  | .single s => s ≠ ""
  | .multi l => !l.isEmpty

def fmtChoiceVal : ChoiceVal → String
  | .single s => s
  | .multi l => String.intercalate ", " (l.filter (· ≠ ""))

/-- Embedding of `build_summary(cart, currency_symbol)`. -/
def build_summary (cart : List CartLine) (cur : String) : String × MQ :=
  if cart.isEmpty then ("Your basket is empty.", 0)
  else
    let fmtLine := fun (p : ℕ × CartLine) =>
      let l := p.2
      let name := l.name.getD "Item"
      let bits :=
        (if l.choices.isEmpty then []
         else
           [String.intercalate " | "
             (l.choices.filterMap
               (fun kv =>
                 if choiceTruthy kv.2 then
                   some (kv.1 ++ ": " ++ fmtChoiceVal kv.2)
                 else none))]) ++
        (if l.extras.isEmpty then []
         else
           ["extras: " ++
             String.intercalate ", " (l.extras.filterMap (·.name))]) ++
        (if l.notes = "" then [] else ["note: " ++ l.notes])
      let detail :=
        if bits.isEmpty then ""
        else " (" ++ String.intercalate "; " bits ++ ")"
      toString (p.1 + 1) ++ ". x" ++ toString (qtyOr1 l) ++ " " ++ name ++
        detail ++ " = " ++ cur ++ fmtMoney l.line_total
    let total := cart_total cart
    ("Order summary:\n" ++ String.intercalate "\n" (cart.enum.map fmtLine) ++
       "\n\nTotal: " ++ cur ++ fmtMoney total,
     total)

/-! ### Modifier / extras matching (ordering.py) -/

/-- Embedding of `_match_choice(options, msg, synonyms)`. -/
def match_choice (options : List String) (msg : String)
    (synonyms : List (String × String)) : Option String :=
  let m := normalize_text msg synonyms
  if m = "" then none
  else
    match options.find? (fun opt => normalize_text opt synonyms = m) with
    | some opt => some opt
    | none =>
      match options.find?
          (fun opt =>
            let o := normalize_text opt synonyms
            o ≠ "" && containsSub o.data m.data) with
      | some opt => some opt
      | none =>
        let opts_norm :=
          (options.filter (· ≠ "")).map (fun o => normalize_text o synonyms)
        match fuzzy_best_key opts_norm m (65 / 100) with
        | none => none
        | some best =>
          options.find? (fun opt => normalize_text opt synonyms = best)

/-- Embedding of `_match_multi_choices(options, msg, synonyms)`. -/
def match_multi_choices (options : List String) (msg : String)
    (synonyms : List (String × String)) : List String :=
  let m := normalize_text msg synonyms
  if m = "" then []
  else
    (split_intents m).foldl
      (fun picked p =>
        match match_choice options p synonyms with
        | some ch => if ch ∈ picked then picked else picked ++ [ch]
        | none => picked)
      []

/-- Embedding of `_match_extra(extras, msg, synonyms)`. -/
def match_extra (extras : List Extra) (msg : String)
    (synonyms : List (String × String)) : Option Extra :=
  let m := normalize_text msg synonyms
  if m = "" then none
  else
    let names := extras.map (fun e => pyStrip (optStr e.name))
    let names_l := (names.filter (· ≠ "")).map (fun n => normalize_text n synonyms)
    match fuzzy_best_key names_l m (66 / 100) with
    | none => none
    | some best =>
      extras.find?
        (fun e => normalize_text (pyStrip (optStr e.name)) synonyms = best)

/-! ### pending_parts queue helpers (ordering.py) -/

/-- Embedding of `_queue_pending_parts(state, remaining_parts)` (defined
in the source but never invoked by `handle_message`). -/
def queue_pending_parts (st : ConvState) (remaining : List String) :
    ConvState :=
  if remaining.isEmpty then st
  else {st with pending_parts := st.pending_parts ++ remaining}

/-- Embedding of `_pop_pending_part(state)`: pops the head even when it
strips to empty (in which case `none` is returned but the element is
gone). -/
def pop_pending_part (st : ConvState) : Option String × ConvState :=
  match st.pending_parts with
  | [] => (none, st)
  | p :: rest =>
    let nxt := pyStrip p
    ((if nxt = "" then none else some nxt), {st with pending_parts := rest})

/-! ### handle_message (ordering.py), phase by phase

`handle_message` is embedded at the value level: the JSON round-trips
`_load_cart/_dump_cart` and `_load_state/_dump_state` at the boundary are
modelled separately (see the parser at the end of the file); the body
operates on the decoded cart and state exactly as the source does.  The
single recursive call (draining `pending_parts` after a line finishes
configuration) is fuelled; the recursion depth is at most two because the
inner call runs with `mode` removed. -/

abbrev HMResult := String × List CartLine × ConvState

def BASKET_CMDS : List String :=
  ["basket", "cart", "summary", "my order", "whats my order",
   "what s my order", "what\x27s my order"]

def CONFIRM_CMDS : List String := ["confirm", "place order", "checkout"]

def MENU_CMDS : List String :=
  ["menu", "show menu", "what do you have", "what do you have?",
   "what have you got"]

/-- Python `msg_norm.split(" ", 1)[1]`: everything after the first
space. -/
def afterFirstSpace (s : String) : String :=
  ⟨(s.data.dropWhile (fun c => c ≠ ' ')).drop 1⟩

/-- The per-line condition of the removal loop:
`target_id and ln.get("item_id") == target_id`. -/
def matchesTarget (tid : Option String) (ln : CartLine) : Bool :=
  (match tid with
   | some s => s != ""
   | none => false) && (ln.item_id == tid)

/-- The removal loop of the `remove`/`delete` command: drop or decrement
the first line whose `item_id` equals the (truthy) target id. -/
def remove_scan (tid : Option String) : List CartLine →
    List CartLine × Bool
  | [] => ([], false)
  | ln :: tl =>
    if matchesTarget tid ln then
      let q := qtyOr1 ln
      if 1 < q then ((recalc_line_total {ln with qty := q - 1}) :: tl, true)
      else (tl, true)
    else
      let (tc, r) := remove_scan tid tl
      (ln :: tc, r)

/-- Split on each single space character (the embedded texts are
whitespace-normalised, so words are the pieces). -/
def wordsSplit : List Char → List (List Char)
  | [] => [[]]
  | c :: ts =>
    if c = ' ' then [] :: wordsSplit ts
    else
      match wordsSplit ts with
      | [] => [[c]]
      | p :: rest => (c :: p) :: rest

def isPfxWords : List (List Char) → List (List Char) → Bool
  | [], _ => true
  | _ :: _, [] => false
  | p :: ps, t :: ts => p = t && isPfxWords ps ts

/-- Word-level model of
`re.search(r"\bwhat\s+(.+?)\s+(?:do you have|have you got|are there|is there)\??\b", msg_norm)`
on the whitespace-normalised `msg_norm`: leftmost occurrence of the word
`what`, lazily minimal non-empty middle, then one of the alternatives as
whole words; returns `group(1).strip()`. -/
def searchWhatHave (msg : String) : Option String :=
  let ws := wordsSplit msg.data
  let n := ws.length
  let alts : List (List (List Char)) :=
    [["do".data, "you".data, "have".data],
     ["have".data, "you".data, "got".data],
     ["are".data, "there".data],
     ["is".data, "there".data]]
  ((List.range n).filter (fun i => ws.get? i = some "what".data)).findSome?
    (fun i =>
      ((List.range n).filter (fun j => i + 2 ≤ j)).findSome?
        (fun j =>
          if alts.any (fun alt => isPfxWords alt (ws.drop j)) then
            some (String.intercalate " "
              (((ws.drop (i + 1)).take (j - i - 1)).map
                (fun w => (⟨w⟩ : String))))
          else none))

/-- First index with `required=True`
(the `while first_required < len(mods) ...` loop). -/
def firstRequiredIdx (mods : List ModifierSpec) : ℕ :=
  (mods.findIdx? (·.required)).getD mods.length

/-- Next required modifier at or after `i`
(the `while next_idx < len(mods) and not required` loop). -/
def nextRequiredIdx (mods : List ModifierSpec) (i : ℕ) : ℕ :=
  match (mods.drop i).findIdx? (·.required) with
  | some k => i + k
  | none => max i mods.length

/-- The line appended for a resolved item: data fields, recalculated
total, then the `_needs_modifiers` / `_first_mod_index` / `_needs_extras`
markers. -/
def mk_new_line (item : MenuItem) (qty : ℤ) : CartLine :=
  let l : CartLine :=
    { item_id := item.id, name := item.name, qty := qty,
      base_price := item.base_price.getD 0, choices := [],
      choice_price_deltas := [], extras := [], notes := "", line_total := 0 }
  let l := recalc_line_total l
  let mods := get_item_modifiers item
  let fr := firstRequiredIdx mods
  let l :=
    if mods ≠ [] ∧ fr < mods.length then
      {l with needs_modifiers := true, first_mod_index := some (fr : ℤ)}
    else l
  if item.extras ≠ [] then {l with needs_extras := true} else l

/-- The disambiguation reply built from the first eight keyword
matches. -/
def ambiguity_reply (cur : String) (ms : List MenuItem) : String :=
  "Which one did you mean?\n" ++
    String.intercalate "\n"
      ((ms.take 8).map
        (fun m =>
          "- " ++ pyShowOpt m.name ++ " (" ++ cur ++
            fmtMoney (m.base_price.getD 0) ++ ")"))

inductive LoopOut where
  | early (r : String × List CartLine)
  | done (cart : List CartLine) (added : Bool)
deriving Repr

/-- The per-phrase loop of the add flow (`for part in parts: ...`):
resolve each phrase, return early on ambiguity or on a category phrase
before anything was added, silently skip unresolved phrases, append a new
line per resolved item.  Both early returns hand back
`_dump_state(state)` unchanged, so the loop yields only the reply and the
cart at that point. -/
def processParts (menu : MenuDoc) (synonyms : List (String × String))
    (cur : String) :
    List CartLine → Bool → List String → LoopOut
  | cart, added, [] => .done cart added
  | cart, added, part :: rest =>
    let qt := parse_qty part
    match find_item_in_text menu qt.2 synonyms with
    | none =>
      let ms := find_items_by_keyword menu qt.2 synonyms
      if 1 < ms.length then .early (ambiguity_reply cur ms, cart)
      else
        match find_category_in_text menu qt.2 synonyms with
        | some cat2 =>
          if !added then .early (render_category menu cat2 cur, cart)
          else processParts menu synonyms cur cart added rest
        | none => processParts menu synonyms cur cart added rest
    | some item =>
      processParts menu synonyms cur (cart ++ [mk_new_line item qt.1])
        true rest

def clearModMarkers (l : CartLine) : CartLine :=
  {l with needs_modifiers := false, first_mod_index := none}

/-- The extras listing `"- name (£p.pp)"` used by both extras prompts. -/
def extra_lines_str (extras : List Extra) (cur : String) : String :=
  String.intercalate "\n"
    (extras.filterMap
      (fun e =>
        match e.name with
        | some n =>
          if n ≠ "" then
            some ("- " ++ n ++ " (" ++ cur ++ fmtMoney e.price ++ ")")
          else none
        | none => none))

inductive ScanOut where
  | started (r : HMResult)
  | nostart (cart : List CartLine)
deriving Repr

/-- The validity check of the modifier-start scan: the marked line's item
must resolve in the index and `_first_mod_index` must be a valid index
into its (non-empty) modifier list (`if mods and 0 <= mod_index <
len(mods)`). -/
def startModAt (menu : MenuDoc) (ln : CartLine) :
    Option (MenuItem × ModifierSpec) :=
  match ln.item_id.bind (dget (idxOf menu).items_by_id) with
  | none => none
  | some item =>
    let mi := ln.first_mod_index.getD 0
    if 0 ≤ mi then
      match (get_item_modifiers item).get? mi.toNat with
      | some mod =>
        if get_item_modifiers item ≠ [] then some (item, mod) else none
      | none => none
    else none

/-- The `for i, ln in enumerate(cart)` scan that starts modifier
configuration at the first marked line (clearing markers of skipped
invalid lines as the source's `pop` calls do). -/
def start_mods (menu : MenuDoc) (state : ConvState) : ℕ → List CartLine →
    ScanOut
  | _, [] => .nostart []
  | i, ln :: tl =>
    let cont := fun (ln' : CartLine) =>
      match start_mods menu state (i + 1) tl with
      | .started r => ScanOut.started (r.1, ln' :: r.2.1, r.2.2)
      | .nostart tc => ScanOut.nostart (ln' :: tc)
    if ln.needs_modifiers then
      match startModAt menu ln with
      | some im =>
        let st' :=
          {state with
            mode := some "awaiting_modifier",
            line_index := some (i : ℤ),
            mod_index := some (ln.first_mod_index.getD 0)}
        .started
          ("Nice. For your " ++ pyShowOpt im.1.name ++ ", " ++
             im.2.prompt ++ "\nOptions: " ++
             String.intercalate ", " im.2.options,
           clearModMarkers ln :: tl, st')
      | none => cont (clearModMarkers ln)
    else cont ln

/-- The validity check of the extras-start scan: the marked line's item
must resolve and carry a non-empty extras list. -/
def startExtrasAt (menu : MenuDoc) (ln : CartLine) : Option MenuItem :=
  match ln.item_id.bind (dget (idxOf menu).items_by_id) with
  | none => none
  | some item => if item.extras ≠ [] then some item else none

/-- The analogous scan that starts extras collection at the first
`_needs_extras` line. -/
def start_extras (menu : MenuDoc) (cur : String) (state : ConvState) :
    ℕ → List CartLine → ScanOut
  | _, [] => .nostart []
  | i, ln :: tl =>
    let cont := fun (ln' : CartLine) =>
      match start_extras menu cur state (i + 1) tl with
      | .started r => ScanOut.started (r.1, ln' :: r.2.1, r.2.2)
      | .nostart tc => ScanOut.nostart (ln' :: tc)
    if ln.needs_extras then
      match startExtrasAt menu ln with
      | some item =>
        let st' :=
          {state with
            mode := some "awaiting_extras",
            line_index := some (i : ℤ)}
        .started
          ("Any extras?\n" ++ extra_lines_str item.extras cur ++
             "\n\nSay an extra name, or “no extras”.",
           {ln with needs_extras := false} :: tl, st')
      | none => cont {ln with needs_extras := false}
    else cont ln

/-- The fixed-command section of `handle_message` (everything before the
mid-configuration handling); `none` means fall through.  Every branch in
the source returns `_dump_state(state)` unchanged, so the phase returns
only the reply and the cart; the caller re-attaches the state. -/
def command_phase (menu : MenuDoc) (synonyms : List (String × String))
    (cur : String) (msg_norm : String) (cart : List CartLine) :
    Option (String × List CartLine) :=
  let categoryBranch : Unit → Option (String × List CartLine) := fun _ =>
    match find_category_in_text menu msg_norm synonyms with
    | some cat => some (render_category menu cat cur, cart)
    | none => none
  if BASKET_CMDS.contains msg_norm then
    some ((build_summary cart cur).1, cart)
  else if CONFIRM_CMDS.contains msg_norm then
    if cart.isEmpty then
      some ("Your basket is empty. Tell me what you want first 🙂", cart)
    else
      some ((build_summary cart cur).1 ++
        "\n\nIf that looks right, hit Confirm in the app.", cart)
  else if strStarts "remove " msg_norm || strStarts "delete " msg_norm then
    let target_text := pyStrip (afterFirstSpace msg_norm)
    match find_item_in_text menu target_text synonyms with
    | none =>
      some ("Tell me which item to remove (e.g. “remove Egg Fried Rice”).",
        cart)
    | some target =>
      let res := remove_scan target.id cart
      if !res.2 then some ("That item isn’t in your basket.", cart)
      else
        some ("Removed it.\n\n" ++ (build_summary res.1 cur).1 ++ "\n\n" ++
          next_prompt menu, res.1)
  else if MENU_CMDS.contains msg_norm ||
      containsSub "what do you have".data msg_norm.data then
    let cats := all_category_names menu
    if !cats.isEmpty then
      some ("We have: " ++ String.intercalate ", " cats ++
        ".\nWhich category do you want?", cart)
    else some ("Tell me what you’d like (e.g. the name of an item).", cart)
  else if is_greeting_only msg_norm then
    let cats := all_category_names menu
    if !cats.isEmpty then
      some ("Hey! What can I get you?\nWe’ve got: " ++
        String.intercalate ", " cats ++ ".", cart)
    else some ("Hey! What can I get you?", cart)
  else
    match searchWhatHave msg_norm with
    | some wanted =>
      match find_category_in_text menu wanted synonyms with
      | some catq => some (render_category menu catq cur, cart)
      | none =>
        let cats := all_category_names menu
        if !cats.isEmpty then
          some ("We have: " ++ String.intercalate ", " cats ++
            ".\nWhich category do you want?", cart)
        else categoryBranch ()
    | none => categoryBranch ()

/-- The `awaiting_modifier` block.  `Sum.inr st` is fall-through with the
block's final state (`{}` after an invalid reference, the input state when
the mode does not match); `Sum.inl none` propagates fuel exhaustion of the
recursive pending-part call. -/
def modifier_phase (recurse : String → List CartLine → ConvState →
      Option HMResult)
    (menu : MenuDoc) (synonyms : List (String × String)) (cur : String)
    (msg_raw : String) (cart : List CartLine) (state : ConvState) :
    Sum (Option HMResult) ConvState :=
  if state.mode ≠ some "awaiting_modifier" then .inr state
  else
    let li := state.line_index.getD (-1)
    let mi := state.mod_index.getD (-1)
    if 0 ≤ li then
      match cart.get? li.toNat with
      | none => .inr ConvState.empty
      | some line =>
        match line.item_id.bind (dget (idxOf menu).items_by_id) with
        | none => .inr ConvState.empty
        | some item =>
          let mods := get_item_modifiers item
          if 0 ≤ mi then
            match mods.get? mi.toNat with
            | none => .inr ConvState.empty
            | some mod =>
              let afterChoice : CartLine → Sum (Option HMResult) ConvState :=
                fun line' =>
                  let cart' := cart.set li.toNat line'
                  let next_idx := nextRequiredIdx mods (mi.toNat + 1)
                  match mods.get? next_idx with
                  | some nxt =>
                    let st' :=
                      {state with
                        mode := some "awaiting_modifier",
                        line_index := some li,
                        mod_index := some (next_idx : ℤ)}
                    .inl (some ("Got it. " ++ nxt.prompt ++ "\nOptions: " ++
                      String.intercalate ", " nxt.options, cart', st'))
                  | none =>
                    if item.extras ≠ [] then
                      let st' :=
                        {state with
                          mode := some "awaiting_extras",
                          line_index := some li}
                      .inl (some ("Any extras?\n" ++
                        extra_lines_str item.extras cur ++
                        "\n\nSay an extra name, or “no extras”.", cart', st'))
                    else
                      let st1 :=
                        {state with
                          mode := none, line_index := none,
                          mod_index := none}
                      match pop_pending_part st1 with
                      | (some nxt_part, st2) =>
                        let summary := (build_summary cart' cur).1
                        .inl ((recurse nxt_part cart' st2).map
                          (fun r =>
                            ("Nice.\n\n" ++ summary ++ "\n\n" ++ r.1,
                             r.2.1, r.2.2)))
                      | (none, st2) =>
                        .inl (some ("Nice.\n\n" ++
                          (build_summary cart' cur).1 ++ "\n\n" ++
                          next_prompt menu, cart', st2))
              if mod.multi then
                let picked := match_multi_choices mod.options msg_raw synonyms
                if picked.isEmpty then
                  .inl (some ("I need one or more of these options: " ++
                    String.intercalate ", " mod.options, cart, state))
                else
                  afterChoice (recalc_line_total
                    {line with
                      choices := dinsert line.choices mod.key (.multi picked),
                      choice_price_deltas :=
                        dinsert line.choice_price_deltas mod.key
                          (picked.foldl
                            (fun a x => a + extract_price_delta x) 0)})
              else
                match match_choice mod.options msg_raw synonyms with
                | none =>
                  .inl (some ("I need one of these options: " ++
                    String.intercalate ", " mod.options, cart, state))
                | some chosen =>
                  afterChoice (recalc_line_total
                    {line with
                      choices := dinsert line.choices mod.key (.single chosen),
                      choice_price_deltas :=
                        dinsert line.choice_price_deltas mod.key
                          (extract_price_delta chosen)})
          else .inr ConvState.empty
    else .inr ConvState.empty

/-- The `awaiting_extras` block; same conventions as `modifier_phase`. -/
def extras_phase (recurse : String → List CartLine → ConvState →
      Option HMResult)
    (menu : MenuDoc) (synonyms : List (String × String)) (cur : String)
    (msg_raw msg_norm : String) (cart : List CartLine) (state : ConvState) :
    Sum (Option HMResult) ConvState :=
  if state.mode ≠ some "awaiting_extras" then .inr state
  else
    let li := state.line_index.getD (-1)
    if NO_EXTRAS.contains msg_norm then
      let st1 := {state with mode := none, line_index := none}
      match pop_pending_part st1 with
      | (some nxt, st2) =>
        let summary := (build_summary cart cur).1
        .inl ((recurse nxt cart st2).map
          (fun r =>
            ("All good. No extras.\n\n" ++ summary ++ "\n\n" ++ r.1,
             r.2.1, r.2.2)))
      | (none, st2) =>
        .inl (some ("All good. No extras.\n\n" ++
          (build_summary cart cur).1 ++ "\n\n" ++ next_prompt menu, cart,
          st2))
    else if 0 ≤ li then
      match cart.get? li.toNat with
      | none => .inr ConvState.empty
      | some line =>
        match line.item_id.bind (dget (idxOf menu).items_by_id) with
        | none => .inr ConvState.empty
        | some item =>
          match match_extra item.extras msg_raw synonyms with
          | some ch =>
            let line' := recalc_line_total {line with extras := line.extras ++ [ch]}
            .inl (some ("Added extra: " ++ pyShowOpt ch.name ++
              ". Add another extra, or say “no extras”.",
              cart.set li.toNat line', state))
          | none =>
            let names := item.extras.filterMap
              (fun e =>
                match e.name with
                | some n => if n ≠ "" then some n else none
                | none => none)
            .inl (some ("Extras available: " ++
              String.intercalate ", " names ++ ". Or say “no extras”.",
              cart, state))
    else .inr ConvState.empty

/-- The fixed list of protected UK takeaway combos of the add flow. -/
def common_combos : List String :=
  ["salt and pepper", "salt & pepper", "sweet and sour", "sweet & sour",
   "hot and sour", "hot & sour"]

/-- The add-item flow (strip filler, protect `and`-phrases, normalise,
split, per-phrase loop, configuration start, continuation phrases, dynamic
help). -/
def add_flow (menu : MenuDoc) (synonyms : List (String × String))
    (cur : String) (msg_raw msg_norm : String) (cart : List CartLine)
    (state : ConvState) : HMResult :=
  let cleaned_lower := pyLower (strip_filler msg_raw)
  let protectedTxt :=
    protect_and_phrases cleaned_lower
      ((idxOf menu).and_phrases ++ common_combos)
  let msg_for_split := normalize_text protectedTxt synonyms
  let parts := split_intents msg_for_split
  match processParts menu synonyms cur cart false parts with
  | .early r => (r.1, r.2, state)
  | .done cart' added =>
    if added then
      match start_mods menu state 0 cart' with
      | .started r => r
      | .nostart cart2 =>
        match start_extras menu cur state 0 cart2 with
        | .started r => r
        | .nostart cart3 =>
          ("Got it.\n\n" ++ (build_summary cart3 cur).1 ++ "\n\n" ++
            next_prompt menu, cart3, state)
    else
      let continueFallback : Unit → HMResult := fun _ =>
        let cats := all_category_names menu
        if !cats.isEmpty then
          ("No problem. What would you like to add?\nCategories: " ++
            String.intercalate ", " cats, cart', state)
        else ("No problem. Tell me what item you want to add.", cart', state)
      if is_continue_order msg_norm then
        match concept_from_message msg_norm with
        | some concept =>
          match find_category_by_concept menu concept synonyms with
          | some catc => (render_category menu catc cur, cart', state)
          | none => continueFallback ()
        | none => continueFallback ()
      else (dynamic_help menu, cart', state)

/-- Embedding of `handle_message(message, items_json, menu_dict,
state_json)` at the value level, with fuel for the recursive
pending-parts drain. -/
def handleMessageFuel : ℕ → String → List CartLine → MenuDoc → ConvState →
    Option HMResult
  | 0, _, _, _, _ => none
  | fuel + 1, message, cart0, menu_dict, state0 =>
    let synonyms := menu_synonyms menu_dict
    let menu := build_menu_index menu_dict synonyms
    let cur := currency_symbol menu
    let msg_raw := pyStrip message
    let msg_norm := normalize_text msg_raw synonyms
    let recurse := fun (m : String) (c : List CartLine) (s : ConvState) =>
      handleMessageFuel fuel m c menu_dict s
    match command_phase menu synonyms cur msg_norm cart0 with
    | some p => some (p.1, p.2, state0)
    | none =>
      match modifier_phase recurse menu synonyms cur msg_raw cart0 state0 with
      | .inl r => r
      | .inr st1 =>
        match extras_phase recurse menu synonyms cur msg_raw msg_norm cart0
            st1 with
        | .inl r => r
        | .inr st2 =>
          some (add_flow menu synonyms cur msg_raw msg_norm cart0 st2)

/-- The entry point with enough fuel for any input: the recursive call
runs with `mode` removed from the state, so it never recurses again. -/
def handle_message (message : String) (cart : List CartLine)
    (menu : MenuDoc) (state : ConvState) : Option HMResult :=
  handleMessageFuel 2 message cart menu state

/-! ### json.loads and _load_cart / _load_state (ordering.py)

A faithful recursive-descent parser for the grammar `json.loads` accepts
(strict mode): the standard JSON value grammar plus Python's
`NaN`/`Infinity`/`-Infinity` literals.  Numbers are kept exactly as
rationals.  A `\uXXXX` escape that is a lone surrogate (which CPython
would keep as a lone-surrogate code unit, unrepresentable as a Unicode
scalar value) is mapped to U+FFFD; no claim exercises that corner.
`none` models `json.loads` raising. -/

inductive PyJson where
  | null
  | bool (b : Bool)
  | num (q : MQ)
  | nan
  | inf (neg : Bool)
  | str (s : String)
  | arr (l : List PyJson)
  | obj (l : List (String × PyJson))
deriving Repr

def PyJson.isArr : PyJson → Bool
  | .arr _ => true
  | _ => false

def PyJson.isObj : PyJson → Bool
  | .obj _ => true
  | _ => false

def jsonWs (c : Char) : Bool := c = ' ' || c = '\t' || c = '\n' || c = '\r'

def skipJsonWs (t : List Char) : List Char := t.dropWhile jsonWs

def hexVal (c : Char) : Option ℕ :=
  if '0' ≤ c ∧ c ≤ '9' then some (c.toNat - 48)
  else if 'a' ≤ c ∧ c ≤ 'f' then some (c.toNat - 87)
  else if 'A' ≤ c ∧ c ≤ 'F' then some (c.toNat - 55)
  else none

def hex4 (t : List Char) : Option (ℕ × List Char) :=
  match t with
  | a :: b :: c :: d :: rest =>
    match hexVal a, hexVal b, hexVal c, hexVal d with
    | some x, some y, some z, some w =>
      some (((x * 16 + y) * 16 + z) * 16 + w, rest)
    | _, _, _, _ => none
  | _ => none

/-- JSON string body after the opening quote; strict mode rejects raw
control characters below U+0020. -/
def parseStrBody : ℕ → List Char → List Char → Option (String × List Char)
  | 0, _, _ => none
  | _ + 1, _, [] => none
  | fuel + 1, acc, c :: ts =>
    if c = '"' then some (⟨acc.reverse⟩, ts)
    else if c = '\\' then
      match ts with
      | [] => none
      | e :: ts2 =>
        if e = '"' then parseStrBody fuel ('"' :: acc) ts2
        else if e = '\\' then parseStrBody fuel ('\\' :: acc) ts2
        else if e = '/' then parseStrBody fuel ('/' :: acc) ts2
        else if e = 'b' then parseStrBody fuel ('\x08' :: acc) ts2
        else if e = 'f' then parseStrBody fuel ('\x0c' :: acc) ts2
        else if e = 'n' then parseStrBody fuel ('\n' :: acc) ts2
        else if e = 'r' then parseStrBody fuel ('\r' :: acc) ts2
        else if e = 't' then parseStrBody fuel ('\t' :: acc) ts2
        else if e = 'u' then
          match hex4 ts2 with
          | none => none
          | some (code, ts3) =>
            if 0xD800 ≤ code ∧ code < 0xDC00 then
              match ts3 with
              | '\\' :: 'u' :: ts4 =>
                match hex4 ts4 with
                | some (code2, ts5) =>
                  if 0xDC00 ≤ code2 ∧ code2 < 0xE000 then
                    let combined :=
                      0x10000 + (code - 0xD800) * 0x400 + (code2 - 0xDC00)
                    parseStrBody fuel
                      ((Char.ofNat combined) :: acc) ts5
                  else parseStrBody fuel ('�' :: acc) ts3
                | none => parseStrBody fuel ('�' :: acc) ts3
              | _ => parseStrBody fuel ('�' :: acc) ts3
            else if 0xDC00 ≤ code ∧ code < 0xE000 then
              parseStrBody fuel ('�' :: acc) ts3
            else parseStrBody fuel ((Char.ofNat code) :: acc) ts3
        else none
    else if c.toNat < 32 then none
    else parseStrBody fuel (c :: acc) ts

/-- JSON number per the strict grammar
`-?(?:0|[1-9]\d*)(\.\d+)?([eE][-+]?\d+)?`, evaluated exactly. -/
def parseNum (t : List Char) : Option (MQ × List Char) :=
  let (neg, t1) := if t.head? = some '-' then (true, t.drop 1) else (false, t)
  match t1 with
  | [] => none
  | c :: _ =>
    if ¬ c.isDigit then none
    else
      let (ip, t2) :=
        if c = '0' then (([c] : List Char), t1.drop 1)
        else (t1.takeWhile Char.isDigit, t1.dropWhile Char.isDigit)
      let (fracNum, fracDen, t3) :=
        match t2 with
        | '.' :: t2b =>
          let fd := t2b.takeWhile Char.isDigit
          if fd = [] then (0, 1, t2)
          else (MQ.ofN (digitsValNat fd), MQ.pow10 fd.length,
            t2b.drop fd.length)
        | _ => ((0 : MQ), (1 : MQ), t2)
      let (expOk, expVal, t4) :=
        match t3 with
        | e :: t3b =>
          if e = 'e' ∨ e = 'E' then
            let (esign, t3c) :=
              match t3b with
              | '+' :: r => ((1 : ℤ), r)
              | '-' :: r => ((-1 : ℤ), r)
              | _ => ((1 : ℤ), t3b)
            let ed := t3c.takeWhile Char.isDigit
            if ed = [] then (false, (0 : ℤ), t3)
            else (true, esign * (digitsValNat ed : ℤ), t3c.drop ed.length)
          else (true, (0 : ℤ), t3)
        | [] => (true, (0 : ℤ), t3)
      if ¬ expOk then none
      else
        let mantissa : MQ := MQ.ofN (digitsValNat ip) + fracNum / fracDen
        let scaled : MQ :=
          if 0 ≤ expVal then mantissa * MQ.pow10 expVal.toNat
          else mantissa / MQ.pow10 (-expVal).toNat
        some ((if neg then -scaled else scaled), t4)

mutual

def parseVal : ℕ → List Char → Option (PyJson × List Char)
  | 0, _ => none
  | fuel + 1, t =>
    if isPfx "null".data t then some (.null, t.drop 4)
    else if isPfx "true".data t then some (.bool true, t.drop 4)
    else if isPfx "false".data t then some (.bool false, t.drop 5)
    else if isPfx "NaN".data t then some (.nan, t.drop 3)
    else if isPfx "Infinity".data t then some (.inf false, t.drop 8)
    else if isPfx "-Infinity".data t then some (.inf true, t.drop 9)
    else
      match t with
      | '"' :: ts => (parseStrBody (fuel + 1) [] ts).map (fun p => (.str p.1, p.2))
      | '[' :: ts =>
        match skipJsonWs ts with
        | ']' :: ts2 => some (.arr [], ts2)
        | ts2 => (parseElems fuel ts2 []).map (fun p => (.arr p.1, p.2))
      | '{' :: ts =>
        match skipJsonWs ts with
        | '}' :: ts2 => some (.obj [], ts2)
        | ts2 => (parseMembers fuel ts2 []).map (fun p => (.obj p.1, p.2))
      | _ => (parseNum t).map (fun p => (.num p.1, p.2))

def parseElems (fuel : ℕ) (t : List Char) (acc : List PyJson) :
    Option (List PyJson × List Char) :=
  match fuel with
  | 0 => none
  | fuel + 1 =>
    match parseVal fuel t with
    | none => none
    | some (v, rest) =>
      match skipJsonWs rest with
      | ',' :: rest2 => parseElems fuel (skipJsonWs rest2) (v :: acc)
      | ']' :: rest2 => some ((v :: acc).reverse, rest2)
      | _ => none

def parseMembers (fuel : ℕ) (t : List Char)
    (acc : List (String × PyJson)) :
    Option (List (String × PyJson) × List Char) :=
  match fuel with
  | 0 => none
  | fuel + 1 =>
    match t with
    | '"' :: ts =>
      match parseStrBody (fuel + 1) [] ts with
      | none => none
      | some (key, rest) =>
        match skipJsonWs rest with
        | ':' :: rest2 =>
          match parseVal fuel (skipJsonWs rest2) with
          | none => none
          | some (v, rest3) =>
            match skipJsonWs rest3 with
            | ',' :: rest4 =>
              parseMembers fuel (skipJsonWs rest4) ((key, v) :: acc)
            | '}' :: rest4 =>
              some ((acc.reverse ++ [(key, v)]).foldl
                (fun m kv => dinsert m kv.1 kv.2) [], rest4)
            | _ => none
        | _ => none
    | _ => none

end

/-- Embedding of `json.loads(s)`: parse one value surrounded by
whitespace; anything else raises (`none`). -/
def json_loads (s : String) : Option PyJson :=
  match parseVal (s.length + 1) (skipJsonWs s.data) with
  | some (v, rest) => if skipJsonWs rest = [] then some v else none
  | none => none

/-- Embedding of `_load_cart(items_json)`: a parse failure or a non-list
value degrades to the empty cart. -/
def load_cart (items_json : String) : List PyJson :=
  match json_loads (if items_json = "" then "[]" else items_json) with
  | some (.arr l) => l
  | _ => []

/-- Embedding of `_load_state(state_json)`: a parse failure or a non-dict
value degrades to the empty state object. -/
def load_state (state_json : String) : List (String × PyJson) :=
  match json_loads (if state_json = "" then "{}" else state_json) with
  | some (.obj l) => l
  | _ => []

/-! ### Concrete fixtures used by the counterexamples and witnesses -/

def itemSPC : MenuItem :=
  { id := some "spc", name := some "Salt and Pepper Chicken",
    category_id := none, base_price := some 6, modifiers := [],
    options_compat := [], extras := [] }

def menuC2 : MenuDoc :=
  { meta := { currency := none, synonyms := [] }, categories := [],
    items := [itemSPC] }

def itemAlphaA : MenuItem :=
  { id := some "ca", name := some "Aa Alpha", category_id := none,
    base_price := some 7, modifiers := [], options_compat := [],
    extras := [] }

def itemAlphaB : MenuItem :=
  { id := some "cb", name := some "Aa Beta", category_id := none,
    base_price := some 8, modifiers := [], options_compat := [],
    extras := [] }

def itemBurger : MenuItem :=
  { id := some "b1", name := some "Burger", category_id := none,
    base_price := some 5, modifiers := [], options_compat := [],
    extras := [] }

/-- A menu whose custom synonyms rewrite the user's word (`aa` to `bb`,
then `bb` to `cc` on the second pass) while the item names produce
synonym-expanded index keys containing `bb`: the phrase `aa` then fails
`_find_item_in_text` but matches two items by keyword. -/
def menuC4 : MenuDoc :=
  { meta := { currency := none, synonyms := [("bb", "cc"), ("aa", "bb")] },
    categories := [], items := [itemAlphaA, itemAlphaB, itemBurger] }

def sizeMod : RawModifier :=
  { key := some "size", prompt := some "Choose size:", required := true,
    multi := false, options := ["Small", "Large (+1.50)"] }

def itemAlphaWrap : MenuItem :=
  { id := some "aw", name := some "Alpha Wrap", category_id := none,
    base_price := some 6, modifiers := [sizeMod], options_compat := [],
    extras := [] }

def itemBetaWrap : MenuItem :=
  { id := some "bw", name := some "Beta Wrap", category_id := none,
    base_price := some 7, modifiers := [sizeMod], options_compat := [],
    extras := [] }

/-- Two items that both carry a required modifier. -/
def menuC5 : MenuDoc :=
  { meta := { currency := none, synonyms := [] }, categories := [],
    items := [itemAlphaWrap, itemBetaWrap] }

/-- The cart line `handle_message` appends for `burger` in `menuC4`. -/
def burgerAdded : CartLine :=
  { item_id := some "b1", name := some "Burger", qty := 1, base_price := 5,
    choices := [], choice_price_deltas := [], extras := [], notes := "",
    line_total := 5 }

def alphaLineDone : CartLine :=
  { item_id := some "aw", name := some "Alpha Wrap", qty := 1,
    base_price := 6, choices := [], choice_price_deltas := [], extras := [],
    notes := "", line_total := 6 }

def betaLineMarked : CartLine :=
  { item_id := some "bw", name := some "Beta Wrap", qty := 1,
    base_price := 7, choices := [], choice_price_deltas := [], extras := [],
    notes := "", line_total := 7, needs_modifiers := true,
    first_mod_index := some 0 }

def burgerLine2 : CartLine :=
  { item_id := some "b1", name := some "Burger", qty := 2, base_price := 5,
    choices := [], choice_price_deltas := [], extras := [], notes := "",
    line_total := 10 }

/-! ### Claim C6 -/

/-- C6 counterexample: `_build_menu_index` does not leave the input menu
document unchanged — the returned document differs from the input (it has
gained the `_index` member). -/
theorem claim_C6_counterexample :
    build_menu_index menuC2 (menu_synonyms menuC2) ≠ menuC2 := by
  decide

/-- C6 (amended): `_build_menu_index` attaches the derived index onto the
input document under the `_index` key and returns that same document; all
data fields (`meta`, `categories`, `items`) are unchanged. -/
theorem claim_C6 (menu : MenuDoc) (synonyms : List (String × String)) :
    (build_menu_index menu synonyms).meta = menu.meta ∧
    (build_menu_index menu synonyms).categories = menu.categories ∧
    (build_menu_index menu synonyms).items = menu.items ∧
    (build_menu_index menu synonyms).index.isSome = true := by
  refine ⟨rfl, rfl, rfl, rfl⟩

/-! ### Claim C2 -/

/-- C2: evaluating the splitter pipeline of `handle_message` (protect the
menu's `and`-phrases, normalise, split) on the failing input
`"salt and pepper chicken and a coke"` with `"Salt and Pepper Chicken"`
on the menu yields three phrases, not the two the spec requires: the
`__AND__` sentinel written by `_protect_and_phrases` is destroyed by
`_normalize_text`, whose punctuation class strips underscores. -/
theorem claim_C2 :
    split_intents
        (normalize_text
          (protect_and_phrases
            (pyLower (strip_filler "salt and pepper chicken and a coke"))
            ((idxOf (build_menu_index menuC2 (menu_synonyms menuC2))).and_phrases
              ++ common_combos))
          (menu_synonyms menuC2)) =
      ["salt", "pepper chicken", "a coca coca cola"] ∧
    (split_intents
        (normalize_text
          (protect_and_phrases
            (pyLower (strip_filler "salt and pepper chicken and a coke"))
            ((idxOf (build_menu_index menuC2 (menu_synonyms menuC2))).and_phrases
              ++ common_combos))
          (menu_synonyms menuC2))).length = 3 := by
  exact ⟨by decide, by decide⟩

/-! ### Claim C8 -/

/-- C8: `_load_cart` and `_load_state` degrade malformed serialized JSON
(unparseable, or parsing to a non-list / non-dict value) to the empty
cart `[]` and empty state `{}`; the embedded functions are total, so no
exception reaches the caller. -/
theorem claim_C8 (s : String) :
    ((∀ v, json_loads s = some v → v.isArr = false) → load_cart s = []) ∧
    ((∀ v, json_loads s = some v → v.isObj = false) → load_state s = []) := by
  constructor
  · intro h
    unfold load_cart
    by_cases hs : s = ""
    · subst hs; rfl
    · simp only [if_neg hs]
      cases hv : json_loads s with
      | none => rfl
      | some v =>
        have := h v hv
        cases v <;> simp_all [PyJson.isArr]
  · intro h
    unfold load_state
    by_cases hs : s = ""
    · subst hs; rfl
    · simp only [if_neg hs]
      cases hv : json_loads s with
      | none => rfl
      | some v =>
        have := h v hv
        cases v <;> simp_all [PyJson.isObj]

/-- C8 witness: the concrete malformed payload `"nonsense"` parses to
nothing and both loaders return their empty defaults. -/
theorem claim_C8_witness :
    (∀ v, json_loads "nonsense" = some v → v.isArr = false) ∧
    load_cart "nonsense" = [] ∧ load_state "nonsense" = [] := by
  have hnone : json_loads "nonsense" = none := rfl
  have h := claim_C8 "nonsense"
  refine ⟨?_, ?_, ?_⟩
  · intro v hv; rw [hnone] at hv; cases hv
  · exact h.1 (fun v hv => by rw [hnone] at hv; cases hv)
  · exact h.2 (fun v hv => by rw [hnone] at hv; cases hv)

/-! ### Claim C1 -/

/-- Sum of the stored per-modifier price deltas of a line. -/
def sumDeltas (l : CartLine) : MQ :=
  l.choice_price_deltas.foldl (fun acc p => acc + p.2) 0

/-- Sum of the prices of the line's extras. -/
def sumExtraPrices (l : CartLine) : MQ :=
  l.extras.foldl (fun acc e => acc + e.price) 0

/-- The spec's per-line invariant
`line_total == round(qty * (base_price + Σ deltas + Σ extras.price), 2)`. -/
def lineTotalOk (l : CartLine) : Prop :=
  l.line_total =
    pyRound2 (MQ.ofInt l.qty * (l.base_price + sumDeltas l + sumExtraPrices l))

instance (l : CartLine) : Decidable (lineTotalOk l) :=
  inferInstanceAs (Decidable (_ = _))

theorem recalc_ok (l : CartLine) (h : l.qty ≠ 0) :
    lineTotalOk (recalc_line_total l) := by
  simp [lineTotalOk, recalc_line_total, qtyOr1, sumDeltas, sumExtraPrices, h]

/-- C1: every `handle_message` operation that creates or mutates a cart
line re-establishes `line_total = round(qty * (base_price + Σ deltas +
Σ extras.price), 2)` — appending an item (`mk_new_line`), recording a
single or multi modifier choice with its parsed delta, appending an
extra, and decrementing the quantity on removal; and the basket total
reported by `build_summary` is `round(Σ line_total, 2)`, each line having
been rounded independently before the final sum is separately rounded. -/
theorem claim_C1 :
    (∀ (item : MenuItem) (q : ℤ), 1 ≤ q → lineTotalOk (mk_new_line item q)) ∧
    (∀ (l : CartLine) (key ch : String), 1 ≤ l.qty →
      lineTotalOk (recalc_line_total
        {l with
          choices := dinsert l.choices key (ChoiceVal.single ch),
          choice_price_deltas :=
            dinsert l.choice_price_deltas key (extract_price_delta ch)})) ∧
    (∀ (l : CartLine) (key : String) (picked : List String), 1 ≤ l.qty →
      lineTotalOk (recalc_line_total
        {l with
          choices := dinsert l.choices key (ChoiceVal.multi picked),
          choice_price_deltas :=
            dinsert l.choice_price_deltas key
              (picked.foldl (fun a x => a + extract_price_delta x) 0)})) ∧
    (∀ (l : CartLine) (e : Extra), 1 ≤ l.qty →
      lineTotalOk (recalc_line_total {l with extras := l.extras ++ [e]})) ∧
    (∀ l : CartLine, 1 < qtyOr1 l →
      lineTotalOk (recalc_line_total {l with qty := qtyOr1 l - 1})) ∧
    (∀ (cart : List CartLine) (cur : String),
      (build_summary cart cur).2 =
        pyRound2 (cart.foldl (fun acc x => acc + x.line_total) 0)) := by
  refine ⟨?_, ?_, ?_, ?_, ?_, ?_⟩
  · intro item q hq
    unfold mk_new_line
    have hrec : lineTotalOk
        (recalc_line_total
          { item_id := item.id, name := item.name, qty := q,
            base_price := item.base_price.getD 0, choices := [],
            choice_price_deltas := [], extras := [], notes := "",
            line_total := 0 }) := by
      apply recalc_ok; simp; omega
    simp only []
    split <;> split <;>
      simpa [lineTotalOk, sumDeltas, sumExtraPrices] using hrec
  · intro l key ch hq
    apply recalc_ok; simp; omega
  · intro l key picked hq
    apply recalc_ok; simp; omega
  · intro l e hq
    apply recalc_ok; simp; omega
  · intro l hq
    apply recalc_ok; simp; omega
  · intro cart cur
    cases cart with
    | nil => simp [build_summary]; decide
    | cons a t => simp [build_summary, cart_total]

/-- C1 witness: concrete instantiations of the hypotheses — a freshly
appended line, an appended extra, and a removal decrement all satisfy the
invariant, and a two-line basket total is the rounded sum. -/
theorem claim_C1_witness :
    ((1 : ℤ) ≤ 2 ∧ lineTotalOk (mk_new_line itemAlphaWrap 2)) ∧
    (1 < qtyOr1 burgerLine2 ∧
      lineTotalOk (recalc_line_total
        {burgerLine2 with qty := qtyOr1 burgerLine2 - 1})) ∧
    (build_summary [alphaLineDone, burgerLine2] "£").2 =
      pyRound2 (([alphaLineDone, burgerLine2].foldl
        (fun acc x => acc + x.line_total) 0)) := by
  refine ⟨⟨by decide, claim_C1.1 itemAlphaWrap 2 (by decide)⟩,
    ⟨by decide, claim_C1.2.2.2.2.1 burgerLine2 (by decide)⟩,
    claim_C1.2.2.2.2.2 [alphaLineDone, burgerLine2] "£"⟩

/-! ### Claim C3 -/

/-- C3 counterexample: with the default synonym dictionary the normalizer
is not idempotent — `water` normalizes to `still water`, which normalizes
again to `still still water`. -/
theorem claim_C3_counterexample :
    normalize_text (normalize_text "water" defaultSynonyms) defaultSynonyms ≠
      normalize_text "water" defaultSynonyms := by
  decide

/-! ### Claims C4 and C5: concrete counterexamples -/

/-- C4 counterexample: the message `burger and aa` on `menuC4` hits the
ambiguity branch on its second phrase (two keyword matches) and returns
the numbered candidate list — but the returned cart is not the input
cart: the first phrase already appended a Burger line. -/
theorem claim_C4_counterexample :
    handleMessageFuel 2 "burger and aa" [] menuC4 {} =
      some ("Which one did you mean?\n- Aa Alpha (£7.00)\n- Aa Beta (£8.00)",
        [burgerAdded], {}) ∧
    ([burgerAdded] : List CartLine) ≠ [] := by
  exact ⟨by decide, by decide⟩

/-- C5 counterexample: the two-phrase message `alpha wrap and beta wrap`
transitions to AWAITING_MODIFIER for the first line, yet the second
phrase is not enqueued into `pending_parts` (the returned queue is empty);
it was instead resolved immediately into a marked cart line. -/
theorem claim_C5_counterexample :
    handleMessageFuel 2 "alpha wrap and beta wrap" [] menuC5 {} =
      some ("Nice. For your Alpha Wrap, Choose size:\nOptions: Small, Large (+1.50)",
        [alphaLineDone, betaLineMarked],
        { mode := some "awaiting_modifier", line_index := some 0,
          mod_index := some 0, pending_parts := [] }) ∧
    ({ mode := some "awaiting_modifier", line_index := some 0,
       mod_index := some 0, pending_parts := [] } : ConvState).pending_parts
      = [] := by
  exact ⟨by decide, rfl⟩

/-! ### Phase lemmas for the universal theorems -/

/-- One-step unfolding of `handleMessageFuel` at positive fuel. -/
theorem hm_step (fuel : ℕ) (msg : String) (cart : List CartLine)
    (menu : MenuDoc) (state : ConvState) :
    handleMessageFuel (fuel + 1) msg cart menu state =
      (let synonyms := menu_synonyms menu
       let menuI := build_menu_index menu synonyms
       let cur := currency_symbol menuI
       let msg_raw := pyStrip msg
       let msg_norm := normalize_text msg_raw synonyms
       match command_phase menuI synonyms cur msg_norm cart with
       | some p => some (p.1, p.2, state)
       | none =>
         match modifier_phase
             (fun m c s => handleMessageFuel fuel m c menu s) menuI synonyms
             cur msg_raw cart state with
         | .inl r => r
         | .inr st1 =>
           match extras_phase
               (fun m c s => handleMessageFuel fuel m c menu s) menuI synonyms
               cur msg_raw msg_norm cart st1 with
           | .inl r => r
           | .inr st2 =>
             some (add_flow menuI synonyms cur msg_raw msg_norm cart st2)) :=
  rfl

theorem modifier_phase_skip (recurse : String → List CartLine → ConvState →
      Option HMResult)
    (menu : MenuDoc) (syns : List (String × String)) (cur msg_raw : String)
    (cart : List CartLine) (state : ConvState)
    (h : state.mode ≠ some "awaiting_modifier") :
    modifier_phase recurse menu syns cur msg_raw cart state =
      .inr state := by
  unfold modifier_phase
  simp [h]

theorem extras_phase_skip (recurse : String → List CartLine → ConvState →
      Option HMResult)
    (menu : MenuDoc) (syns : List (String × String))
    (cur msg_raw msg_norm : String) (cart : List CartLine)
    (state : ConvState) (h : state.mode ≠ some "awaiting_extras") :
    extras_phase recurse menu syns cur msg_raw msg_norm cart state =
      .inr state := by
  unfold extras_phase
  simp [h]

theorem start_mods_pending (menu : MenuDoc) (st : ConvState) :
    ∀ (i : ℕ) (cart : List CartLine) (r : HMResult),
      start_mods menu st i cart = .started r →
      r.2.2.pending_parts = st.pending_parts := by
  intro i cart
  induction cart generalizing i with
  | nil => intro r h; simp [start_mods] at h
  | cons ln tl ih =>
    intro r h
    unfold start_mods at h
    repeat' split at h
    all_goals cases h
    all_goals first
      | rfl
      | (dsimp only; exact ih _ _ (by assumption))

theorem start_extras_pending (menu : MenuDoc) (cur : String)
    (st : ConvState) :
    ∀ (i : ℕ) (cart : List CartLine) (r : HMResult),
      start_extras menu cur st i cart = .started r →
      r.2.2.pending_parts = st.pending_parts := by
  intro i cart
  induction cart generalizing i with
  | nil => intro r h; simp [start_extras] at h
  | cons ln tl ih =>
    intro r h
    unfold start_extras at h
    repeat' split at h
    all_goals cases h
    all_goals first
      | rfl
      | (dsimp only; exact ih _ _ (by assumption))

theorem add_flow_pending (menu : MenuDoc) (syns : List (String × String))
    (cur msg_raw msg_norm : String) (cart : List CartLine)
    (st : ConvState) :
    (add_flow menu syns cur msg_raw msg_norm cart st).2.2.pending_parts =
      st.pending_parts := by
  unfold add_flow
  simp only []
  cases hp : processParts menu syns cur cart false
      (split_intents
        (normalize_text
          (protect_and_phrases (pyLower (strip_filler msg_raw))
            ((idxOf menu).and_phrases ++ common_combos))
          syns)) with
  | early r => rfl
  | done cart' added =>
    cases added with
    | false =>
      simp only [Bool.false_eq_true, if_false]
      repeat' split
      all_goals rfl
    | true =>
      simp only [if_true]
      cases hm : start_mods menu st 0 cart' with
      | started r => exact start_mods_pending menu st 0 cart' r hm
      | nostart cart2 =>
        dsimp only
        cases he : start_extras menu cur st 0 cart2 with
        | started r =>
          dsimp only; exact start_extras_pending menu cur st 0 cart2 r he
        | nostart cart3 => rfl

/-- C5 (amended): the NONE-mode path of `handle_message` never enqueues
anything into `pending_parts` — whatever it returns carries the incoming
queue unchanged.  Phrases beyond the first are not queued: the loop
resolves every phrase immediately, marking still-unconfigured lines with
the in-cart `_needs_modifiers`/`_first_mod_index`/`_needs_extras` keys,
and only the first marked line's configuration is started in the turn. -/
theorem claim_C5 (fuel : ℕ) (msg : String) (cart : List CartLine)
    (menu : MenuDoc) (state : ConvState) (r : HMResult)
    (h1 : state.mode ≠ some "awaiting_modifier")
    (h2 : state.mode ≠ some "awaiting_extras")
    (h : handleMessageFuel (fuel + 1) msg cart menu state = some r) :
    r.2.2.pending_parts = state.pending_parts := by
  rw [hm_step] at h
  dsimp only [] at h
  rw [modifier_phase_skip _ _ _ _ _ _ _ h1] at h
  dsimp only [] at h
  rw [extras_phase_skip _ _ _ _ _ _ _ _ h2] at h
  dsimp only [] at h
  revert h
  cases hcp : command_phase (build_menu_index menu (menu_synonyms menu))
      (menu_synonyms menu)
      (currency_symbol (build_menu_index menu (menu_synonyms menu)))
      (normalize_text (pyStrip msg) (menu_synonyms menu)) cart with
  | some p => intro h; cases h; rfl
  | none =>
    intro h; cases h
    exact add_flow_pending _ _ _ _ _ _ _

/-- C5 witness: the two-item message on `menuC5` satisfies the NONE-mode
hypotheses and returns an empty `pending_parts` queue. -/
theorem claim_C5_witness :
    (({} : ConvState).mode ≠ some "awaiting_modifier") ∧
    (({} : ConvState).mode ≠ some "awaiting_extras") ∧
    (("Nice. For your Alpha Wrap, Choose size:\nOptions: Small, Large (+1.50)",
        [alphaLineDone, betaLineMarked],
        ({ mode := some "awaiting_modifier", line_index := some 0,
           mod_index := some 0, pending_parts := [] } : ConvState)) :
      HMResult).2.2.pending_parts = ({} : ConvState).pending_parts := by
  refine ⟨by decide, by decide, ?_⟩
  exact claim_C5 1 "alpha wrap and beta wrap" [] menuC5 {} _ (by decide)
    (by decide) (by decide)

theorem command_phase_fires (menu : MenuDoc) (syns : List (String × String))
    (cur msg_norm : String) (cart : List CartLine)
    (h : BASKET_CMDS.contains msg_norm = true ∨
      CONFIRM_CMDS.contains msg_norm = true ∨
      (strStarts "remove " msg_norm || strStarts "delete " msg_norm) = true ∨
      MENU_CMDS.contains msg_norm = true ∨
      containsSub "what do you have".data msg_norm.data = true ∨
      is_greeting_only msg_norm = true ∨
      (∃ c, find_category_in_text menu msg_norm syns = some c)) :
    (command_phase menu syns cur msg_norm cart).isSome = true := by
  unfold command_phase
  dsimp only []
  by_cases h1 : BASKET_CMDS.contains msg_norm = true
  · rw [if_pos h1]
    rfl
  by_cases h2 : CONFIRM_CMDS.contains msg_norm = true
  · rw [if_neg h1, if_pos h2]
    split <;> rfl
  by_cases h3 :
      (strStarts "remove " msg_norm || strStarts "delete " msg_norm) = true
  · rw [if_neg h1, if_neg h2, if_pos h3]
    cases find_item_in_text menu (pyStrip (afterFirstSpace msg_norm)) syns
    · rfl
    · dsimp only []
      split <;> rfl
  by_cases h4 : (MENU_CMDS.contains msg_norm ||
      containsSub "what do you have".data msg_norm.data) = true
  · rw [if_neg h1, if_neg h2, if_neg h3, if_pos h4]
    split <;> rfl
  by_cases h5 : is_greeting_only msg_norm = true
  · rw [if_neg h1, if_neg h2, if_neg h3, if_neg h4, if_pos h5]
    split <;> rfl
  -- every fixed-command guard failed: the hypothesis leaves a category
  rcases h with h | h | h | h | h | h | ⟨c, hc⟩
  · exact absurd h h1
  · exact absurd h h2
  · exact absurd h h3
  · exact absurd (by rw [h]; rfl : (MENU_CMDS.contains msg_norm ||
      containsSub "what do you have".data msg_norm.data) = true) h4
  · exact absurd (by rw [h]; exact Bool.or_true _ : (MENU_CMDS.contains
      msg_norm || containsSub "what do you have".data msg_norm.data) = true)
      h4
  · exact absurd h h5
  · rw [if_neg h1, if_neg h2, if_neg h3, if_neg h4, if_neg h5]
    cases hw : searchWhatHave msg_norm with
    | none =>
      dsimp only []
      rw [hc]
      rfl
    | some w =>
      dsimp only []
      cases find_category_in_text menu w syns with
      | some catq => rfl
      | none =>
        dsimp only []
        split
        · rfl
        · rw [hc]
          rfl

/-- C9: in every conversation state — including AWAITING_MODIFIER and
AWAITING_EXTRAS — the fixed commands (basket/summary, confirm/checkout,
remove/delete, menu display, greeting, category name) are recognised
before any mid-configuration handling: the fixed-command section
(`command_phase`) produces an answer, and `handle_message`'s result is
exactly that answer — its reply and cart — with the state object, hence
the pending configuration fields `mode`, `line_index`, `mod_index` and
`pending_parts`, returned unchanged.  Because the result is wholly the
command section's, the message is never matched against the pending
modifier options or the pending extras list (the awaiting-mode handlers
never run). -/
theorem claim_C9 (fuel : ℕ) (menu : MenuDoc) (cart : List CartLine)
    (state : ConvState) (msg : String)
    (h : BASKET_CMDS.contains
        (normalize_text (pyStrip msg) (menu_synonyms menu)) = true ∨
      CONFIRM_CMDS.contains
        (normalize_text (pyStrip msg) (menu_synonyms menu)) = true ∨
      (strStarts "remove " (normalize_text (pyStrip msg) (menu_synonyms menu))
        || strStarts "delete "
          (normalize_text (pyStrip msg) (menu_synonyms menu))) = true ∨
      MENU_CMDS.contains
        (normalize_text (pyStrip msg) (menu_synonyms menu)) = true ∨
      containsSub "what do you have".data
        (normalize_text (pyStrip msg) (menu_synonyms menu)).data = true ∨
      is_greeting_only
        (normalize_text (pyStrip msg) (menu_synonyms menu)) = true ∨
      (∃ c, find_category_in_text (build_menu_index menu (menu_synonyms menu))
        (normalize_text (pyStrip msg) (menu_synonyms menu))
        (menu_synonyms menu) = some c)) :
    (command_phase (build_menu_index menu (menu_synonyms menu))
      (menu_synonyms menu)
      (currency_symbol (build_menu_index menu (menu_synonyms menu)))
      (normalize_text (pyStrip msg) (menu_synonyms menu))
      cart).isSome = true ∧
    handleMessageFuel (fuel + 1) msg cart menu state =
      Option.map (fun p => (p.1, p.2, state))
        (command_phase (build_menu_index menu (menu_synonyms menu))
          (menu_synonyms menu)
          (currency_symbol (build_menu_index menu (menu_synonyms menu)))
          (normalize_text (pyStrip msg) (menu_synonyms menu)) cart) := by
  have hf := command_phase_fires (build_menu_index menu (menu_synonyms menu))
    (menu_synonyms menu)
    (currency_symbol (build_menu_index menu (menu_synonyms menu)))
    (normalize_text (pyStrip msg) (menu_synonyms menu)) cart h
  obtain ⟨p, hp⟩ := Option.isSome_iff_exists.mp hf
  refine ⟨hf, ?_⟩
  rw [hm_step]
  dsimp only []
  rw [hp]
  rfl

/-- C9 witness: the `basket` command mid-configuration — the command
section answers, `handle_message` returns exactly that answer, and the
AWAITING_MODIFIER state (line 0, modifier 0, one pending part) comes
back untouched. -/
theorem claim_C9_witness :
    (command_phase (build_menu_index menuC4 (menu_synonyms menuC4))
      (menu_synonyms menuC4)
      (currency_symbol (build_menu_index menuC4 (menu_synonyms menuC4)))
      (normalize_text (pyStrip "basket") (menu_synonyms menuC4))
      [burgerLine2]).isSome = true ∧
    handleMessageFuel 1 "basket" [burgerLine2] menuC4
      { mode := some "awaiting_modifier", line_index := some 0,
        mod_index := some 0, pending_parts := ["x"] } =
      Option.map (fun p => (p.1, p.2,
        ({ mode := some "awaiting_modifier", line_index := some 0,
           mod_index := some 0, pending_parts := ["x"] } : ConvState)))
        (command_phase (build_menu_index menuC4 (menu_synonyms menuC4))
          (menu_synonyms menuC4)
          (currency_symbol (build_menu_index menuC4 (menu_synonyms menuC4)))
          (normalize_text (pyStrip "basket") (menu_synonyms menuC4))
          [burgerLine2]) := by
  exact claim_C9 0 menuC4 [burgerLine2] _ "basket" (Or.inl (by decide))

theorem removeNotCmd (s : String)
    (h : (strStarts "remove " s || strStarts "delete " s) = true) :
    BASKET_CMDS.contains s = false ∧ CONFIRM_CMDS.contains s = false := by
  constructor
  · cases hcb : BASKET_CMDS.contains s with
    | false => rfl
    | true =>
      exfalso
      have hmem : s ∈ BASKET_CMDS := List.mem_of_elem_eq_true hcb
      simp only [BASKET_CMDS, List.mem_cons, List.not_mem_nil, or_false]
        at hmem
      rcases hmem with rfl | rfl | rfl | rfl | rfl | rfl | rfl <;>
        exact absurd h (by decide)
  · cases hcb : CONFIRM_CMDS.contains s with
    | false => rfl
    | true =>
      exfalso
      have hmem : s ∈ CONFIRM_CMDS := List.mem_of_elem_eq_true hcb
      simp only [CONFIRM_CMDS, List.mem_cons, List.not_mem_nil, or_false]
        at hmem
      rcases hmem with rfl | rfl | rfl <;> exact absurd h (by decide)

theorem remove_scan_nomatch (tid : Option String) :
    ∀ cart : List CartLine, (∀ ln ∈ cart, matchesTarget tid ln = false) →
    remove_scan tid cart = (cart, false)
  | [], _ => rfl
  | ln :: tl, h => by
    have h0 : matchesTarget tid ln = false := h ln (List.mem_cons_self _ _)
    have ih := remove_scan_nomatch tid tl
      (fun x hx => h x (List.mem_cons_of_mem _ hx))
    simp only [remove_scan, h0, Bool.false_eq_true, if_false, ih]

theorem remove_scan_found (tid : Option String) (ln : CartLine)
    (post : List CartLine) (hln : matchesTarget tid ln = true) :
    ∀ pre : List CartLine, (∀ x ∈ pre, matchesTarget tid x = false) →
    remove_scan tid (pre ++ ln :: post) =
      ((if 1 < qtyOr1 ln then
          pre ++ recalc_line_total {ln with qty := qtyOr1 ln - 1} :: post
        else pre ++ post), true)
  | [], _ => by
    simp only [List.nil_append, remove_scan, hln, if_true]
    split <;> rfl
  | x :: xs, hpre => by
    have h0 : matchesTarget tid x = false := hpre x (List.mem_cons_self _ _)
    have ih := remove_scan_found tid ln post hln xs
      (fun y hy => hpre y (List.mem_cons_of_mem _ hy))
    simp only [List.cons_append, remove_scan, h0, Bool.false_eq_true,
      if_false, List.append_eq]
    rw [ih]
    by_cases hq : 1 < qtyOr1 ln
    · simp [hq]
    · simp [hq]

theorem command_phase_remove (menu : MenuDoc)
    (syns : List (String × String)) (cur msg_norm : String)
    (cart : List CartLine)
    (hrem : (strStarts "remove " msg_norm ||
      strStarts "delete " msg_norm) = true) :
    command_phase menu syns cur msg_norm cart =
      match find_item_in_text menu (pyStrip (afterFirstSpace msg_norm))
          syns with
      | none =>
        some ("Tell me which item to remove (e.g. “remove Egg Fried Rice”).",
          cart)
      | some target =>
        if !(remove_scan target.id cart).2 then
          some ("That item isn’t in your basket.", cart)
        else
          some ("Removed it.\n\n" ++
            (build_summary (remove_scan target.id cart).1 cur).1 ++
            "\n\n" ++ next_prompt menu, (remove_scan target.id cart).1) := by
  have hnc := removeNotCmd msg_norm hrem
  have hb : ¬(BASKET_CMDS.contains msg_norm = true) := by
    rw [hnc.1]; exact Bool.false_ne_true
  have hc : ¬(CONFIRM_CMDS.contains msg_norm = true) := by
    rw [hnc.2]; exact Bool.false_ne_true
  unfold command_phase
  dsimp only []
  rw [if_neg hb, if_neg hc, if_pos hrem]

/-- C7: on a `remove <item>` / `delete <item>` message (in any
conversation state, any cart): if the item text does not resolve to a
menu item, the reply is the removal re-prompt and the cart is returned
unchanged; if it resolves to an item with no matching cart line, the
reply is the not-in-basket re-prompt and the cart is returned unchanged;
if a matching line exists, the first one is decremented by one and its
`line_total` recomputed when its quantity exceeds one, and deleted
outright when it is one (or absent/zero, which the code reads as one). -/
theorem claim_C7 (fuel : ℕ) (msg : String) (cart : List CartLine)
    (menu : MenuDoc) (state : ConvState)
    (hrem : (strStarts "remove "
        (normalize_text (pyStrip msg) (menu_synonyms menu)) ||
      strStarts "delete "
        (normalize_text (pyStrip msg) (menu_synonyms menu))) = true) :
    (find_item_in_text (build_menu_index menu (menu_synonyms menu))
        (pyStrip (afterFirstSpace
          (normalize_text (pyStrip msg) (menu_synonyms menu))))
        (menu_synonyms menu) = none →
      handleMessageFuel (fuel + 1) msg cart menu state =
        some ("Tell me which item to remove (e.g. “remove Egg Fried Rice”).",
          cart, state)) ∧
    (∀ target, find_item_in_text (build_menu_index menu (menu_synonyms menu))
        (pyStrip (afterFirstSpace
          (normalize_text (pyStrip msg) (menu_synonyms menu))))
        (menu_synonyms menu) = some target →
      (∀ ln ∈ cart, matchesTarget target.id ln = false) →
      handleMessageFuel (fuel + 1) msg cart menu state =
        some ("That item isn’t in your basket.", cart, state)) ∧
    (∀ target pre ln post,
      find_item_in_text (build_menu_index menu (menu_synonyms menu))
        (pyStrip (afterFirstSpace
          (normalize_text (pyStrip msg) (menu_synonyms menu))))
        (menu_synonyms menu) = some target →
      cart = pre ++ ln :: post →
      (∀ x ∈ pre, matchesTarget target.id x = false) →
      matchesTarget target.id ln = true →
      handleMessageFuel (fuel + 1) msg cart menu state =
        some ("Removed it.\n\n" ++
          (build_summary (if 1 < qtyOr1 ln then
              pre ++ recalc_line_total {ln with qty := qtyOr1 ln - 1} :: post
            else pre ++ post)
            (currency_symbol (build_menu_index menu (menu_synonyms menu)))).1
          ++ "\n\n" ++
          next_prompt (build_menu_index menu (menu_synonyms menu)),
          (if 1 < qtyOr1 ln then
            pre ++ recalc_line_total {ln with qty := qtyOr1 ln - 1} :: post
          else pre ++ post), state)) := by
  refine ⟨?_, ?_, ?_⟩
  · intro hfind
    rw [hm_step]
    dsimp only []
    rw [command_phase_remove _ _ _ _ _ hrem, hfind]
  · intro target hfind hnone
    have hscan := remove_scan_nomatch target.id cart hnone
    rw [hm_step]
    dsimp only []
    rw [command_phase_remove _ _ _ _ _ hrem, hfind]
    dsimp only []
    rw [hscan]
    rfl
  · intro target pre ln post hfind hcart hpre hln
    subst hcart
    have hscan := remove_scan_found target.id ln post hln pre hpre
    rw [hm_step]
    dsimp only []
    rw [command_phase_remove _ _ _ _ _ hrem, hfind]
    dsimp only []
    rw [hscan]
    rfl

/-- C7 witness: `remove burger` against a cart holding a quantity-2
burger line decrements it to one and recomputes the line total. -/
theorem claim_C7_witness :
    handleMessageFuel 1 "remove burger" [burgerLine2] menuC4
      ConvState.empty =
      some ("Removed it.\n\n" ++
        (build_summary (if 1 < qtyOr1 burgerLine2 then
            ([] : List CartLine) ++
              recalc_line_total
                {burgerLine2 with qty := qtyOr1 burgerLine2 - 1} :: []
          else ([] : List CartLine) ++ [])
          (currency_symbol (build_menu_index menuC4 (menu_synonyms menuC4)))).1
        ++ "\n\n" ++
        next_prompt (build_menu_index menuC4 (menu_synonyms menuC4)),
        (if 1 < qtyOr1 burgerLine2 then
          ([] : List CartLine) ++
            recalc_line_total
              {burgerLine2 with qty := qtyOr1 burgerLine2 - 1} :: []
        else ([] : List CartLine) ++ []),
        ConvState.empty) := by
  exact (claim_C7 0 "remove burger" [burgerLine2] menuC4 ConvState.empty
      (by decide)).2.2 itemBurger [] burgerLine2 [] (by rfl) rfl
    (fun x hx => absurd hx (List.not_mem_nil x)) (by decide)

theorem processParts_ambig (menu : MenuDoc) (syns : List (String × String))
    (cur : String) (cart : List CartLine) (a : Bool) (part : String)
    (rest : List String)
    (hfind : find_item_in_text menu (parse_qty part).2 syns = none)
    (hamb : 1 < (find_items_by_keyword menu (parse_qty part).2 syns).length) :
    processParts menu syns cur cart a (part :: rest) =
      .early (ambiguity_reply cur
        (find_items_by_keyword menu (parse_qty part).2 syns), cart) := by
  unfold processParts
  dsimp only []
  rw [hfind]
  dsimp only []
  rw [if_pos hamb]

/-- C4 (amended): when NONE-mode processing reaches a phrase whose
keyword plausibly matches two or more items and which resolves to no
single item, `handle_message` stops at that phrase and returns the
disambiguation list (a dash-bulleted list of up to eight candidates with
prices, not a numbered one) together with the conversation state
unchanged; the cart returned is the cart as of that phrase — unchanged
when the ambiguous phrase is the first one (as here), but including the
lines already added for earlier phrases of the same message otherwise
(see the counterexample to the original claim). -/
theorem claim_C4 (fuel : ℕ) (msg : String) (cart : List CartLine)
    (menu : MenuDoc) (state : ConvState) (part : String)
    (rest : List String)
    (h1 : state.mode ≠ some "awaiting_modifier")
    (h2 : state.mode ≠ some "awaiting_extras")
    (hcp : command_phase (build_menu_index menu (menu_synonyms menu))
      (menu_synonyms menu)
      (currency_symbol (build_menu_index menu (menu_synonyms menu)))
      (normalize_text (pyStrip msg) (menu_synonyms menu)) cart = none)
    (hsplit : split_intents (normalize_text
      (protect_and_phrases (pyLower (strip_filler (pyStrip msg)))
        ((idxOf (build_menu_index menu (menu_synonyms menu))).and_phrases ++
          common_combos))
      (menu_synonyms menu)) = part :: rest)
    (hfind : find_item_in_text (build_menu_index menu (menu_synonyms menu))
      (parse_qty part).2 (menu_synonyms menu) = none)
    (hamb : 1 < (find_items_by_keyword
      (build_menu_index menu (menu_synonyms menu)) (parse_qty part).2
      (menu_synonyms menu)).length) :
    handleMessageFuel (fuel + 1) msg cart menu state =
      some (ambiguity_reply
        (currency_symbol (build_menu_index menu (menu_synonyms menu)))
        (find_items_by_keyword (build_menu_index menu (menu_synonyms menu))
          (parse_qty part).2 (menu_synonyms menu)), cart, state) := by
  rw [hm_step]
  dsimp only []
  rw [hcp]
  dsimp only []
  rw [modifier_phase_skip _ _ _ _ _ _ _ h1]
  dsimp only []
  rw [extras_phase_skip _ _ _ _ _ _ _ _ h2]
  dsimp only []
  unfold add_flow
  dsimp only []
  rw [hsplit, processParts_ambig _ _ _ _ _ _ _ hfind hamb]

/-- C4 witness: the single-word message `aa` (whose custom synonym rewrite
`bb` matches two menu items by keyword but no single item) with an empty
cart in NONE mode yields the disambiguation list with cart and state
untouched. -/
theorem claim_C4_witness :
    handleMessageFuel 1 "aa" [] menuC4 ConvState.empty =
      some (ambiguity_reply
        (currency_symbol (build_menu_index menuC4 (menu_synonyms menuC4)))
        (find_items_by_keyword (build_menu_index menuC4 (menu_synonyms menuC4))
          (parse_qty "bb").2 (menu_synonyms menuC4)),
        [], ConvState.empty) := by
  exact claim_C4 0 "aa" [] menuC4 ConvState.empty "bb" [] (by decide)
    (by decide) (by rfl) (by rfl) (by rfl) (by decide)

theorem start_mods_found (menu : MenuDoc) (st : ConvState) (ln : CartLine)
    (post : List CartLine) (im : MenuItem × ModifierSpec)
    (hmark : ln.needs_modifiers = true)
    (hval : startModAt menu ln = some im) :
    ∀ (i : ℕ) (pre : List CartLine),
    (∀ x ∈ pre, x.needs_modifiers = false) →
    start_mods menu st i (pre ++ ln :: post) =
      .started ("Nice. For your " ++ pyShowOpt im.1.name ++ ", " ++
          im.2.prompt ++ "\nOptions: " ++
          String.intercalate ", " im.2.options,
        pre ++ clearModMarkers ln :: post,
        {st with
          mode := some "awaiting_modifier",
          line_index := some ((i + pre.length : ℕ) : ℤ),
          mod_index := some (ln.first_mod_index.getD 0)})
  | i, [], _ => by
    simp only [List.nil_append, start_mods, hmark, if_true, hval]
    norm_num
  | i, x :: xs, hpre => by
    have h0 : x.needs_modifiers = false := hpre x (List.mem_cons_self _ _)
    have ih := start_mods_found menu st ln post im hmark hval (i + 1) xs
      (fun y hy => hpre y (List.mem_cons_of_mem _ hy))
    simp only [List.cons_append, start_mods, h0, Bool.false_eq_true,
      if_false, List.append_eq]
    rw [ih]
    dsimp only []
    simp only [List.length_cons]
    rw [show i + 1 + xs.length = i + (xs.length + 1) from by omega]

/-- C10: when a single NONE-mode message adds several lines that need
configuration, `handle_message` starts configuring the first marked line
and returns the serialized cart right away — with the internal
bookkeeping keys `_needs_modifiers` / `_first_mod_index` still present on
every other added line (only the line whose configuration was started has
them cleared), so lines of the public cart JSON are not limited to the
data-model fields. -/
theorem claim_C10 (fuel : ℕ) (msg : String) (cart : List CartLine)
    (menu : MenuDoc) (state : ConvState) (pre post : List CartLine)
    (lnA lnB : CartLine) (im : MenuItem × ModifierSpec)
    (h1 : state.mode ≠ some "awaiting_modifier")
    (h2 : state.mode ≠ some "awaiting_extras")
    (hcp : command_phase (build_menu_index menu (menu_synonyms menu))
      (menu_synonyms menu)
      (currency_symbol (build_menu_index menu (menu_synonyms menu)))
      (normalize_text (pyStrip msg) (menu_synonyms menu)) cart = none)
    (hpp : processParts (build_menu_index menu (menu_synonyms menu))
      (menu_synonyms menu)
      (currency_symbol (build_menu_index menu (menu_synonyms menu))) cart
      false
      (split_intents (normalize_text
        (protect_and_phrases (pyLower (strip_filler (pyStrip msg)))
          ((idxOf (build_menu_index menu (menu_synonyms menu))).and_phrases
            ++ common_combos))
        (menu_synonyms menu))) = .done (pre ++ lnA :: post) true)
    (hpre : ∀ x ∈ pre, x.needs_modifiers = false)
    (hA : lnA.needs_modifiers = true)
    (hAv : startModAt (build_menu_index menu (menu_synonyms menu)) lnA =
      some im)
    (hBmem : lnB ∈ post)
    (hBn : lnB.needs_modifiers = true)
    (hBf : lnB.first_mod_index.isSome = true) :
    handleMessageFuel (fuel + 1) msg cart menu state =
      some ("Nice. For your " ++ pyShowOpt im.1.name ++ ", " ++
          im.2.prompt ++ "\nOptions: " ++
          String.intercalate ", " im.2.options,
        pre ++ clearModMarkers lnA :: post,
        {state with
          mode := some "awaiting_modifier",
          line_index := some ((pre.length : ℕ) : ℤ),
          mod_index := some (lnA.first_mod_index.getD 0)}) ∧
    lnB ∈ pre ++ clearModMarkers lnA :: post ∧
    "_needs_modifiers" ∈ dumpLineKeys lnB ∧
    "_first_mod_index" ∈ dumpLineKeys lnB := by
  refine ⟨?_, ?_, ?_, ?_⟩
  · rw [hm_step]
    dsimp only []
    rw [hcp]
    dsimp only []
    rw [modifier_phase_skip _ _ _ _ _ _ _ h1]
    dsimp only []
    rw [extras_phase_skip _ _ _ _ _ _ _ _ h2]
    dsimp only []
    unfold add_flow
    dsimp only []
    rw [hpp]
    dsimp only []
    rw [start_mods_found _ _ _ _ _ hA hAv 0 pre hpre]
    norm_num
  · exact List.mem_append_right _ (List.mem_cons_of_mem _ hBmem)
  · simp [dumpLineKeys, hBn]
  · obtain ⟨v, hv⟩ := Option.isSome_iff_exists.mp hBf
    simp [dumpLineKeys, hv]

/-- C10 witness: `alpha wrap and beta wrap` on an empty cart adds both
wraps, starts the size modifier of the first, and the returned cart's
second line still carries both bookkeeping keys. -/
theorem claim_C10_witness :
    handleMessageFuel 1 "alpha wrap and beta wrap" [] menuC5
      ConvState.empty =
      some ("Nice. For your " ++ pyShowOpt itemAlphaWrap.name ++ ", " ++
          "Choose size:" ++ "\nOptions: " ++
          String.intercalate ", " ["Small", "Large (+1.50)"],
        [] ++ clearModMarkers (mk_new_line itemAlphaWrap 1) ::
          [mk_new_line itemBetaWrap 1],
        {ConvState.empty with
          mode := some "awaiting_modifier",
          line_index := some ((([] : List CartLine).length : ℕ) : ℤ),
          mod_index :=
            some ((mk_new_line itemAlphaWrap 1).first_mod_index.getD 0)}) ∧
    mk_new_line itemBetaWrap 1 ∈
      [] ++ clearModMarkers (mk_new_line itemAlphaWrap 1) ::
        [mk_new_line itemBetaWrap 1] ∧
    "_needs_modifiers" ∈ dumpLineKeys (mk_new_line itemBetaWrap 1) ∧
    "_first_mod_index" ∈ dumpLineKeys (mk_new_line itemBetaWrap 1) := by
  exact claim_C10 0 "alpha wrap and beta wrap" [] menuC5 ConvState.empty
    [] [mk_new_line itemBetaWrap 1] (mk_new_line itemAlphaWrap 1)
    (mk_new_line itemBetaWrap 1)
    (itemAlphaWrap,
      ⟨"size", "Choose size:", true, false, ["Small", "Large (+1.50)"]⟩)
    (by decide) (by decide) (by rfl) (by rfl)
    (fun x hx => absurd hx (List.not_mem_nil x)) (by decide) (by decide)
    (by simp) (by decide) (by decide)

theorem mem_dropWhile (p : Char → Bool) :
    ∀ (l : List Char) (c : Char), c ∈ l.dropWhile p → c ∈ l
  | [], c, hc => by simp [List.dropWhile] at hc
  | a :: t, c, hc => by
    by_cases ha : p a
    · rw [List.dropWhile_cons, if_pos ha] at hc
      exact List.mem_cons_of_mem _ (mem_dropWhile p t c hc)
    · rwa [List.dropWhile_cons, if_neg ha] at hc

theorem strip_subset (l : List Char) (c : Char) (h : c ∈ stripChars l) :
    c ∈ l := by
  unfold stripChars at h
  rw [List.mem_reverse] at h
  have h1 := mem_dropWhile isWs _ c h
  rw [List.mem_reverse] at h1
  exact mem_dropWhile isWs _ c h1

theorem dropWhile_head_false (p : Char → Bool) :
    ∀ (l : List Char) (c : Char), (l.dropWhile p).head? = some c →
      p c = false
  | [], c, h => by simp [List.dropWhile] at h
  | a :: t, c, h => by
    by_cases ha : p a
    · rw [List.dropWhile_cons, if_pos ha] at h
      exact dropWhile_head_false p t c h
    · rw [List.dropWhile_cons, if_neg ha] at h
      simp only [List.head?_cons, Option.some.injEq] at h
      subst h
      exact Bool.eq_false_iff.mpr ha

theorem dropWhile_getLast (p : Char → Bool) :
    ∀ l : List Char, l.dropWhile p ≠ [] →
      (l.dropWhile p).getLast? = l.getLast?
  | [], h => absurd rfl h
  | a :: t, h => by
    by_cases ha : p a
    · rw [List.dropWhile_cons, if_pos ha] at h ⊢
      rw [dropWhile_getLast p t h]
      have ht : t ≠ [] := by
        intro he
        rw [he] at h
        exact h rfl
      cases t with
      | nil => exact absurd rfl ht
      | cons b t2 => rw [List.getLast?_cons_cons]
    · rw [List.dropWhile_cons, if_neg ha]

theorem strip_head_not_ws (l : List Char) (c : Char)
    (h : (stripChars l).head? = some c) : isWs c = false := by
  unfold stripChars at h
  rw [List.head?_reverse] at h
  by_cases hne : ((l.dropWhile isWs).reverse).dropWhile isWs = []
  · rw [hne] at h
    exact absurd h (by simp)
  · rw [dropWhile_getLast isWs _ hne] at h
    rw [List.getLast?_reverse] at h
    exact dropWhile_head_false isWs l c h

theorem strip_last_not_ws (l : List Char) (c : Char)
    (h : (stripChars l).getLast? = some c) : isWs c = false := by
  unfold stripChars at h
  rw [List.getLast?_reverse] at h
  exact dropWhile_head_false isWs _ c h

theorem dropWhile_eq_self_of_head (p : Char → Bool) (l : List Char)
    (h : ∀ c, l.head? = some c → p c = false) : l.dropWhile p = l := by
  cases l with
  | nil => rfl
  | cons a t =>
    have := h a rfl
    simp [List.dropWhile_cons, this]

theorem strip_fix (l : List Char)
    (hh : ∀ c, l.head? = some c → isWs c = false)
    (hl : ∀ c, l.getLast? = some c → isWs c = false) :
    stripChars l = l := by
  unfold stripChars
  rw [dropWhile_eq_self_of_head isWs l hh]
  rw [dropWhile_eq_self_of_head isWs l.reverse
    (fun c hc => hl c (by rwa [List.head?_reverse] at hc))]
  exact List.reverse_reverse l

theorem chain_dropWhile (R : Char → Char → Prop) (p : Char → Bool) :
    ∀ l : List Char, List.Chain' R l → List.Chain' R (l.dropWhile p)
  | [], h => h
  | a :: t, h => by
    by_cases ha : p a
    · rw [List.dropWhile_cons, if_pos ha]
      exact chain_dropWhile R p t (List.chain'_cons'.mp h).2
    · rwa [List.dropWhile_cons, if_neg ha]

theorem chain_reverse_sym (l : List Char)
    (h : List.Chain' (fun a b => ¬(isWs a = true ∧ isWs b = true)) l) :
    List.Chain' (fun a b => ¬(isWs a = true ∧ isWs b = true)) l.reverse := by
  rw [List.chain'_reverse]
  exact h.imp (fun a b hab => fun hx => hab ⟨hx.2, hx.1⟩)

theorem strip_chain (l : List Char)
    (h : List.Chain' (fun a b => ¬(isWs a = true ∧ isWs b = true)) l) :
    List.Chain' (fun a b => ¬(isWs a = true ∧ isWs b = true))
      (stripChars l) := by
  unfold stripChars
  exact chain_reverse_sym _ (chain_dropWhile _ _ _
    (chain_reverse_sym _ (chain_dropWhile _ _ _ h)))

theorem ws_good : ∀ (n : ℕ) (y : List Char), y.length ≤ n →
    ((∀ c ∈ wsRunsToSpace y, (isWs c = true → c = ' ') ∧ (c ∈ y ∨ c = ' ')) ∧
      List.Chain' (fun a b => ¬(isWs a = true ∧ isWs b = true))
        (wsRunsToSpace y)) ∧
    ((∀ c ∈ wsSkipRun y, (isWs c = true → c = ' ') ∧ (c ∈ y ∨ c = ' ')) ∧
      List.Chain' (fun a b => ¬(isWs a = true ∧ isWs b = true))
        (wsSkipRun y) ∧
      ∀ c, (wsSkipRun y).head? = some c → isWs c = false) := by
  intro n
  induction n with
  | zero =>
    intro y hy
    cases y with
    | nil => refine ⟨⟨?_, ?_⟩, ?_, ?_, ?_⟩ <;> simp [wsRunsToSpace, wsSkipRun]
    | cons a t => simp at hy
  | succ n ih =>
    intro y hy
    cases y with
    | nil => refine ⟨⟨?_, ?_⟩, ?_, ?_, ?_⟩ <;> simp [wsRunsToSpace, wsSkipRun]
    | cons a t =>
      have ht : t.length ≤ n := by
        simp only [List.length_cons] at hy
        omega
      obtain ⟨⟨hrMem, hrChain⟩, hsMem, hsChain, hsHead⟩ := ih t ht
      by_cases ha : isWs a = true
      · constructor
        · constructor
          · intro c hc
            rw [show wsRunsToSpace (a :: t) = ' ' :: wsSkipRun t from by
              simp only [wsRunsToSpace]; rw [if_pos ha]] at hc
            rcases List.mem_cons.mp hc with rfl | hc2
            · exact ⟨fun _ => rfl, Or.inr rfl⟩
            · obtain ⟨p1, p2⟩ := hsMem c hc2
              refine ⟨p1, ?_⟩
              rcases p2 with h | h
              · exact Or.inl (List.mem_cons_of_mem _ h)
              · exact Or.inr h
          · rw [show wsRunsToSpace (a :: t) = ' ' :: wsSkipRun t from by
              simp only [wsRunsToSpace]; rw [if_pos ha]]
            refine List.chain'_cons'.mpr ⟨?_, hsChain⟩
            intro b hb hcontra
            have hbf := hsHead b hb
            rw [hbf] at hcontra
            exact Bool.false_ne_true hcontra.2
        · rw [show wsSkipRun (a :: t) = wsSkipRun t from by
            simp only [wsSkipRun]; rw [if_pos ha]]
          refine ⟨?_, hsChain, hsHead⟩
          intro c hc
          obtain ⟨p1, p2⟩ := hsMem c hc
          refine ⟨p1, ?_⟩
          rcases p2 with h | h
          · exact Or.inl (List.mem_cons_of_mem _ h)
          · exact Or.inr h
      · have ha' : isWs a = false := Bool.eq_false_iff.mpr ha
        constructor
        · constructor
          · intro c hc
            rw [show wsRunsToSpace (a :: t) = a :: wsRunsToSpace t from by
              simp only [wsRunsToSpace]; rw [if_neg ha]] at hc
            rcases List.mem_cons.mp hc with rfl | hc2
            · exact ⟨fun hw => absurd hw ha,
                Or.inl (List.mem_cons_self _ _)⟩
            · obtain ⟨p1, p2⟩ := hrMem c hc2
              refine ⟨p1, ?_⟩
              rcases p2 with h | h
              · exact Or.inl (List.mem_cons_of_mem _ h)
              · exact Or.inr h
          · rw [show wsRunsToSpace (a :: t) = a :: wsRunsToSpace t from by
              simp only [wsRunsToSpace]; rw [if_neg ha]]
            refine List.chain'_cons'.mpr ⟨?_, hrChain⟩
            intro b _ hcontra
            exact ha hcontra.1
        · rw [show wsSkipRun (a :: t) = a :: wsRunsToSpace t from by
            simp only [wsSkipRun]; rw [if_neg ha]]
          refine ⟨?_, ?_, ?_⟩
          · intro c hc
            rcases List.mem_cons.mp hc with rfl | hc2
            · exact ⟨fun hw => absurd hw ha,
                Or.inl (List.mem_cons_self _ _)⟩
            · obtain ⟨p1, p2⟩ := hrMem c hc2
              refine ⟨p1, ?_⟩
              rcases p2 with h | h
              · exact Or.inl (List.mem_cons_of_mem _ h)
              · exact Or.inr h
          · refine List.chain'_cons'.mpr ⟨?_, hrChain⟩
            intro b _ hcontra
            exact ha hcontra.1
          · intro c hc
            simp only [List.head?_cons, Option.some.injEq] at hc
            subst hc
            exact ha'

theorem skip_eq_runs (y : List Char)
    (h : ∀ c, y.head? = some c → isWs c = false) :
    wsSkipRun y = wsRunsToSpace y := by
  cases y with
  | nil => rfl
  | cons a t =>
    have ha := h a rfl
    rw [show wsSkipRun (a :: t) = a :: wsRunsToSpace t from by
      simp only [wsSkipRun]; rw [if_neg (by simp [ha])]]
    rw [show wsRunsToSpace (a :: t) = a :: wsRunsToSpace t from by
      simp only [wsRunsToSpace]; rw [if_neg (by simp [ha])]]

theorem wsRuns_fix : ∀ z : List Char,
    (∀ c ∈ z, isWs c = true → c = ' ') →
    List.Chain' (fun a b => ¬(isWs a = true ∧ isWs b = true)) z →
    wsRunsToSpace z = z
  | [], _, _ => rfl
  | a :: t, hmem, hch => by
    have ih := wsRuns_fix t (fun c hc => hmem c (List.mem_cons_of_mem _ hc))
      (List.chain'_cons'.mp hch).2
    by_cases ha : isWs a = true
    · have ha' : a = ' ' := hmem a (List.mem_cons_self _ _) ha
      subst ha'
      rw [show wsRunsToSpace (' ' :: t) = ' ' :: wsSkipRun t from by
        simp only [wsRunsToSpace]; rw [if_pos ha]]
      have hhead : ∀ c, t.head? = some c → isWs c = false := by
        intro c hc
        have hrel := (List.chain'_cons'.mp hch).1 c hc
        by_cases hcw : isWs c = true
        · exact absurd ⟨by decide, hcw⟩ hrel
        · exact Bool.eq_false_iff.mpr hcw
      rw [skip_eq_runs t hhead, ih]
    · rw [show wsRunsToSpace (a :: t) = a :: wsRunsToSpace t from by
        simp only [wsRunsToSpace]; rw [if_neg ha]]
      rw [ih]

theorem punct_keep : ∀ (n : ℕ) (y : List Char), y.length ≤ n →
    (∀ c ∈ punctRunsToSpace y, isKeepChar c = true) ∧
    (∀ c ∈ punctSkipRun y, isKeepChar c = true) := by
  intro n
  induction n with
  | zero =>
    intro y hy
    cases y with
    | nil => constructor <;> simp [punctRunsToSpace, punctSkipRun]
    | cons a t => simp at hy
  | succ n ih =>
    intro y hy
    cases y with
    | nil => constructor <;> simp [punctRunsToSpace, punctSkipRun]
    | cons a t =>
      have ht : t.length ≤ n := by
        simp only [List.length_cons] at hy
        omega
      obtain ⟨h1, h2⟩ := ih t ht
      by_cases ha : isKeepChar a = true
      · constructor
        · intro c hc
          rw [show punctRunsToSpace (a :: t) = a :: punctRunsToSpace t from by
            simp only [punctRunsToSpace]; rw [if_pos ha]] at hc
          rcases List.mem_cons.mp hc with rfl | hc2
          · exact ha
          · exact h1 c hc2
        · intro c hc
          rw [show punctSkipRun (a :: t) = a :: punctRunsToSpace t from by
            simp only [punctSkipRun]; rw [if_pos ha]] at hc
          rcases List.mem_cons.mp hc with rfl | hc2
          · exact ha
          · exact h1 c hc2
      · constructor
        · intro c hc
          rw [show punctRunsToSpace (a :: t) = ' ' :: punctSkipRun t from by
            simp only [punctRunsToSpace]; rw [if_neg ha]] at hc
          rcases List.mem_cons.mp hc with rfl | hc2
          · decide
          · exact h2 c hc2
        · intro c hc
          rw [show punctSkipRun (a :: t) = punctSkipRun t from by
            simp only [punctSkipRun]; rw [if_neg ha]] at hc
          exact h2 c hc

theorem punct_fix : ∀ z : List Char,
    (∀ c ∈ z, isKeepChar c = true) → punctRunsToSpace z = z
  | [], _ => rfl
  | a :: t, h => by
    have ha := h a (List.mem_cons_self _ _)
    rw [show punctRunsToSpace (a :: t) = a :: punctRunsToSpace t from by
      simp only [punctRunsToSpace]; rw [if_pos ha]]
    rw [punct_fix t (fun c hc => h c (List.mem_cons_of_mem _ hc))]

theorem keep_lower_char (c : Char) (h : isKeepChar c = true) :
    pyLowerChar c = c := by
  unfold isKeepChar at h
  unfold pyLowerChar
  simp only [Bool.or_eq_true, or_assoc] at h
  rcases h with hl | hd | hws
  · simp only [Bool.and_eq_true, decide_eq_true_eq] at hl
    rw [if_neg (by omega)]
  · simp only [Bool.and_eq_true, decide_eq_true_eq] at hd
    rw [if_neg (by omega)]
  · unfold isWs at hws
    simp only [Bool.or_eq_true, decide_eq_true_eq, or_assoc] at hws
    rcases hws with rfl | rfl | rfl | rfl | rfl | rfl <;> decide

theorem lower_fix : ∀ z : List Char,
    (∀ c ∈ z, isKeepChar c = true) → lowerChars z = z
  | [], _ => rfl
  | a :: t, h => by
    have ih := lower_fix t (fun c hc => h c (List.mem_cons_of_mem _ hc))
    unfold lowerChars at ih ⊢
    rw [List.map_cons, keep_lower_char a (h a (List.mem_cons_self _ _)), ih]

theorem collapse_canon (w : List Char) :
    (∀ c ∈ collapseWsStrip w, isWs c = true → c = ' ') ∧
    List.Chain' (fun a b => ¬(isWs a = true ∧ isWs b = true))
      (collapseWsStrip w) ∧
    (∀ c, (collapseWsStrip w).head? = some c → isWs c = false) ∧
    (∀ c, (collapseWsStrip w).getLast? = some c → isWs c = false) := by
  obtain ⟨⟨hmem, hchain⟩, _⟩ := ws_good w.length w le_rfl
  refine ⟨?_, ?_, ?_, ?_⟩
  · intro c hc hw
    exact (hmem c (strip_subset _ c hc)).1 hw
  · exact strip_chain _ hchain
  · intro c hc
    exact strip_head_not_ws _ c hc
  · intro c hc
    exact strip_last_not_ws _ c hc

theorem collapse_fix_of_canon (z : List Char)
    (hmem : ∀ c ∈ z, isWs c = true → c = ' ')
    (hchain : List.Chain' (fun a b => ¬(isWs a = true ∧ isWs b = true)) z)
    (hh : ∀ c, z.head? = some c → isWs c = false)
    (hl : ∀ c, z.getLast? = some c → isWs c = false) :
    collapseWsStrip z = z := by
  unfold collapseWsStrip
  rw [wsRuns_fix z hmem hchain]
  exact strip_fix z hh hl

theorem collapse_keep (w : List Char)
    (hw : ∀ c ∈ w, isKeepChar c = true) :
    ∀ c ∈ collapseWsStrip w, isKeepChar c = true := by
  intro c hc
  have h1 : c ∈ wsRunsToSpace w := strip_subset _ c hc
  obtain ⟨⟨hmem, _⟩, _⟩ := ws_good w.length w le_rfl
  rcases (hmem c h1).2 with h2 | h2
  · exact hw c h2
  · subst h2
    decide

/-- C3 (amended): the normalizer is idempotent when the synonym map is
empty — `normalize(normalize(x)) == normalize(x)` for every string `x` —
but not in general: with a non-empty synonym map a second pass can apply
a substitution again to the first pass's output (see the counterexample,
where the default map sends `water` to `still water` and a second pass
yields `still still water`). -/
theorem claim_C3 (s : String) :
    normalize_text (normalize_text s []) [] = normalize_text s [] := by
  have hkeepw : ∀ c ∈ punctRunsToSpace (lowerChars (stripChars s.data)),
      isKeepChar c = true :=
    (punct_keep (lowerChars (stripChars s.data)).length _ le_rfl).1
  obtain ⟨hmem2, hchain2, hh2, hl2⟩ :=
    collapse_canon (punctRunsToSpace (lowerChars (stripChars s.data)))
  have hkeep2 := collapse_keep _ hkeepw
  have hfix2 : collapseWsStrip (collapseWsStrip (punctRunsToSpace
      (lowerChars (stripChars s.data)))) =
      collapseWsStrip (punctRunsToSpace (lowerChars (stripChars s.data))) :=
    collapse_fix_of_canon _ hmem2 hchain2 hh2 hl2
  unfold normalize_text
  dsimp only [List.foldl_nil]
  rw [hfix2]
  rw [strip_fix _ hh2 hl2, lower_fix _ hkeep2, punct_fix _ hkeep2, hfix2,
    hfix2]

end OrderChat
